import Mathlib

/-!
# EPDC orchestrator (`src/pl/generic_epdc.c`)

A shallow embedding of the orchestration layer of the e-paper display
controller driver: `epdc_init`, `set_vcom`, `generic_update`,
`do_clear_update`, `switch_hvs_on`, `switch_hvs_off` and the two private
helpers `unpack_nvm_content` and `read_vcom_from_file`.

The drivers behind the function pointers and the C library are outside
the file.  They are modelled by an environment `Env` that answers every
call from the history of the run so far, so that a collaborator may
answer the same call differently each time.  Every call the program
makes is appended to a trace, together with the status it returned.

A function pointer is modelled by a Boolean (`true` = not `NULL`), a
struct pointer by an `Option`.  A use of a `NULL` pointer ends the run:
the program then yields no value (`none`) and the world it had reached.
The macro `assert` comes from `pl/assert.h`, which is not among the
sources: what a failed assertion does is a parameter of the environment.
The C library buffers what is written to a stream; the bytes reach the
file when the stream is closed.
-/

namespace GenericEpdc

/-! ## Data model -/

/-- Update area `struct pl_area`, declared in a header that is not among
the sources.  The orchestrator only hands it on to the controller. -/
structure pl_area where
  left : Int
  top : Int
  width : Int
  height : Int
  deriving DecidableEq, Repr

/-- Modelled from the spec: `enum pl_epdc_temp_mode` is declared in a header
that is not among the sources; the orchestrator only compares the mode with
`PL_EPDC_TEMP_MANUAL`. -/
inductive pl_epdc_temp_mode where
  | PL_EPDC_TEMP_MANUAL
  | PL_EPDC_TEMP_EXTERNAL
  | PL_EPDC_TEMP_INTERNAL
  deriving DecidableEq, Repr

/-- Modelled from the spec: the NVM format tag, "one of four variants"; the
enum is declared in a header that is not among the sources. -/
inductive pl_nvm_format where
  | NVM_FORMAT_S040
  | NVM_FORMAT_S1D13541
  | NVM_FORMAT_EPSON
  | NVM_FORMAT_PLAIN
  deriving DecidableEq, Repr

/-- The HV driver: which of its function pointers are set. -/
structure pl_hv_driver where
  switch_on : Bool
  switch_off : Bool
  deriving DecidableEq, Repr

/-- The VCOM driver: which of its function pointers are set. -/
structure pl_vcom_driver where
  switch_on : Bool
  switch_off : Bool
  deriving DecidableEq, Repr

/-- The VCOM switch: which of `close` and `open` are set, and the
`is_bypass` flag. -/
structure pl_vcom_switch where
  close : Bool
  open_ : Bool
  is_bypass : Bool
  deriving DecidableEq, Repr

/-- The VCOM configuration hardware; `set_vcom` is called without a check
of the function pointer, so it has no presence flag. -/
structure pl_vcom_config where
  hw_ref : Nat := 0
  deriving DecidableEq, Repr

/-- The HV subsystem `pl_hv_t`. -/
structure pl_hv where
  init : Bool
  hvDriver : Option pl_hv_driver
  vcomDriver : Option pl_vcom_driver
  vcomSwitch : Option pl_vcom_switch
  vcomConfig : Option pl_vcom_config
  deriving DecidableEq, Repr

/-- The controller `pl_generic_controller_t`.  Only the function
pointers that the orchestrator tests against `NULL` somewhere carry a
flag (`init`, `update_temp`, `clear_update`); the others are called
unchecked everywhere. -/
structure pl_generic_controller where
  init : Bool
  update_temp : Bool
  clear_update : Bool
  temp_mode : pl_epdc_temp_mode
  waveform_file_path : String
  deriving DecidableEq, Repr

/-- The display NVM `pl_nvm`. -/
structure pl_nvm where
  nvm_format : pl_nvm_format
  vcom : Int
  deriving DecidableEq, Repr

/-- The orchestrator `struct pl_generic_epdc`.  Its own function-pointer
slots are those installed by `generic_epdc_new`. -/
structure pl_generic_epdc where
  hv : Option pl_hv
  nvm : Option pl_nvm
  controller : Option pl_generic_controller
  default_vcom : Int
  deriving DecidableEq, Repr

/-! ## Calls, trace and environment -/

/-- A call that leaves the orchestrator: to a driver through a function
pointer, or to the C library. -/
inductive Call where
  | init (load_nvm_content : Int)
  | update_temp
  | configure_update (wfID : Int) (mode : Int) (area : Option pl_area)
  | trigger_update
  | wait_update_end
  | clear_update
  | fill (area : Option pl_area) (value : Int)
  | load_wflib (filename : String)
  | hv_init
  | hvDriver_switch_on
  | hvDriver_switch_off
  | vcomDriver_switch_on
  | vcomDriver_switch_off
  | vcomSwitch_close
  | vcomSwitch_open
  | vcomConfig_set_vcom (vcomInMillivolt : Int)
  | read_wfdata
  | read_header
  | fopen (filename : String) (mode : String)
  | fwrite (filename : String) (nmemb : Int)
  | fclose (filename : String)
  | fscanf (filename : String)
  | system (command : String)
  deriving DecidableEq, Repr

/-- One entry of the trace of a run.  `call c s`: the call `c` returned
`s` (for `fopen`, `s ≠ 0` stands for a stream that is not `NULL`; for
`fwrite` and `fscanf`, `s` is the count returned).  `void c`: a call from
which the source reads no result (the VCOM switch's `close` and `open`,
and `read_wfdata`, which answers through its out-parameters).
`hvs_on` and `hvs_off` mark the entry into `switch_hvs_on` and
`switch_hvs_off`. -/
inductive Step where
  | call (c : Call) (status : Int)
  | void (c : Call)
  | hvs_on
  | hvs_off
  deriving DecidableEq, Repr

/-- The behaviour of the collaborators: what a call returns after a
given history. -/
structure Env where
  /-- The value returned by a call. -/
  status : List Step → Call → Int
  /-- The buffer and the byte count that `read_wfdata` stores through its
  out-parameters. -/
  wfdata : List Step → List Nat × Int
  /-- The number that `fscanf` stores when it converts one. -/
  scanned : List Step → Int
  /-- What a failed `assert` does, the macro being defined in the header
  `pl/assert.h` that is not among the sources: `some k` when it makes the
  function return the nonzero status `k` at once (section 7 of the spec:
  a fatal condition is surfaced as a nonzero status return), `none` when
  it ends the run, as the `assert` of the C library does. -/
  assert_status : Option { k : Int // k ≠ 0 }
  /-- How many of the bytes buffered in a stream reach the file when
  `fclose` fails. -/
  flushed : List Step → Nat

/-- The state of the outside world: the trace of the run, the content
of the files, and for every open stream the bytes written to it that are
still in the buffer of the C library. -/
structure World where
  trace : List Step
  files : List (String × List Nat)
  streams : List (String × List Nat)
  deriving DecidableEq, Repr

/-- The content of a file, if it has been created. -/
def World.file (w : World) (filename : String) : Option (List Nat) :=
  w.files.lookup filename

/-- A run: from a world to a value (`none` when the run was ended, by a
use of a `NULL` pointer or by an assertion that ends the run) and the
world reached. -/
def Prog (α : Type) : Type := World → Option α × World

/-- Sequencing of runs: a run that was ended stays ended. -/
def Prog.bind {α β : Type} (m : Prog α) (f : α → Prog β) : Prog β :=
  fun w =>
    match m w with
    | (some a, w1) => f a w1
    | (none, w1) => (none, w1)

instance : Monad Prog where
  pure a := fun w => (some a, w)
  bind := Prog.bind

/-- The run is ended: a `NULL` pointer was used. -/
def abort {α : Type} : Prog α := fun w => (none, w)

/-- Modelled from the spec: the macro `assert` of `pl/assert.h`, a header
that is not among the sources, when its condition does not hold.  The
precondition failure is fatal and nothing more of the function runs: the
function returns the nonzero status `k` when `env.assert_status = some k`
(section 7 of the spec: "All fatal conditions are surfaced as a nonzero
status return"), and the run ends without a value when it is `none`. -/
def assert_failed (env : Env) : Prog Int := fun w =>
  (env.assert_status.map (fun k => k.1), w)

/-- Use of a pointer that the source does not test: the run ends when it
is `NULL`. -/
def deref (not_null : Bool) : Prog Unit := if not_null then pure () else abort

/-- A call whose result the program receives. -/
def invoke (env : Env) (c : Call) : Prog Int := fun w =>
  let s := env.status w.trace c
  (some s, { w with trace := w.trace ++ [Step.call c s] })

/-- A call from which no result is read. -/
def invoke_void (c : Call) : Prog Unit := fun w =>
  (some (), { w with trace := w.trace ++ [Step.void c] })

/-- Entry into one of the two HV sequences. -/
def mark (s : Step) : Prog Unit := fun w =>
  (some (), { w with trace := w.trace ++ [s] })

/-- The trace so far. -/
def get_trace : Prog (List Step) := fun w => (some w.trace, w)

/-- Bitwise or of two `int` values, the `|` of `stat |= ...`. -/
def bor (a b : Int) : Int := Int.lor a b

/-! ## The C library calls on files -/

/-- The call `fopen(filename, mode)`: the environment decides whether a
stream is returned (`true`) or `NULL` (`false`).  Opening for writing
creates the file empty; a stream that was opened has nothing buffered. -/
def fopen (env : Env) (filename mode : String) : Prog Bool := fun w =>
  let s := env.status w.trace (Call.fopen filename mode)
  let files :=
    if s ≠ 0 ∧ (mode = "w" ∨ mode = "wb") then (filename, []) :: w.files else w.files
  let streams := if s ≠ 0 then (filename, []) :: w.streams else w.streams
  (some (decide (s ≠ 0)),
    { trace := w.trace ++ [Step.call (Call.fopen filename mode) s], files := files,
      streams := streams })

/-- The call `fwrite(buffer, sizeof(uint8_t), nmemb, fd)` on the stream
of `filename`: the environment decides the count `n` returned, and the
first `n` bytes of the buffer are put into the buffer of the stream.
They are not in the file yet. -/
def fwrite (env : Env) (filename : String) (buffer : List Nat) (nmemb : Int) :
    Prog Int := fun w =>
  let n := env.status w.trace (Call.fwrite filename nmemb)
  (some n,
    { trace := w.trace ++ [Step.call (Call.fwrite filename nmemb) n], files := w.files,
      streams :=
        (filename, (w.streams.lookup filename).getD [] ++ buffer.take n.toNat) :: w.streams })

/-- The bytes that `fclose` with the status `s` appends to the file from
what is buffered: all of them when it succeeds (status 0), else only the
first few, as many as the environment says. -/
def flush (env : Env) (t : List Step) (s : Int) (buffered : List Nat) : List Nat :=
  if s = 0 then buffered else buffered.take (env.flushed t)

/-- The call `fclose(fd)` on the stream of `filename`: what is buffered
is flushed to the file and the stream is closed.  The environment decides
the status; the source never reads it. -/
def fclose (env : Env) (filename : String) : Prog Unit := fun w =>
  let s := env.status w.trace (Call.fclose filename)
  let files :=
    match w.streams.lookup filename with
    | some (b :: bs) =>
      (filename, (w.file filename).getD [] ++ flush env w.trace s (b :: bs)) :: w.files
    | _ => w.files
  (some (),
    { trace := w.trace ++ [Step.call (Call.fclose filename) s], files := files,
      streams := w.streams.filter (fun e => e.1 != filename) })

/-! ## HV rail sequencing -/

/-- The test `(q != NULL) && (q->f != NULL)` on a component pointer and
one of its function pointers. -/
def has {α : Type} (q : Option α) (f : α → Bool) : Bool :=
  match q with
  | some a => f a
  | none => false

/-- Source: `switch_hvs_on`, generic_epdc.c lines 437-450. -/
def switch_hvs_on (env : Env) (hv : pl_hv) : Prog Int := do
  mark Step.hvs_on
  let mut stat : Int := 0
  if has hv.hvDriver (fun d => d.switch_on) then
    stat := bor stat (← invoke env Call.hvDriver_switch_on)
  if has hv.vcomDriver (fun d => d.switch_on) then
    stat := bor stat (← invoke env Call.vcomDriver_switch_on)
  if has hv.vcomSwitch (fun s => s.close && !s.is_bypass) then
    invoke_void Call.vcomSwitch_close
  return stat

/-- Source: `switch_hvs_off`, generic_epdc.c lines 458-471. -/
def switch_hvs_off (env : Env) (hv : pl_hv) : Prog Int := do
  mark Step.hvs_off
  let mut stat : Int := 0
  if has hv.vcomSwitch (fun s => s.open_ && !s.is_bypass) then
    invoke_void Call.vcomSwitch_open
  if has hv.vcomDriver (fun d => d.switch_off) then
    stat := bor stat (← invoke env Call.vcomDriver_switch_off)
  if has hv.hvDriver (fun d => d.switch_off) then
    stat := bor stat (← invoke env Call.hvDriver_switch_off)
  return stat

/-! ## The private helpers of the NVM path -/

/-- Source: `unpack_nvm_content`, generic_epdc.c lines 377-401.  The
stream is used without a test against `NULL`; `ferror` is consulted for
the log message only and is left out. -/
def unpack_nvm_content (env : Env) (buffer : List Nat) (bufferSize : Int) : Prog Int := do
  let filename := "/tmp/dummy.nvm"
  let fd ← fopen env filename "w"
  deref fd
  let n ← fwrite env filename buffer bufferSize
  if n ≠ bufferSize then
    return -1
  fclose env filename
  if (← invoke env
      (Call.system ("/home/root/scripts/extract_display_nvm_content.py " ++ filename))) ≠ 0 then
    return -1
  return 0

/-- Source: `read_vcom_from_file`, generic_epdc.c lines 410-429.  The
value is the status and the number read. -/
def read_vcom_from_file (env : Env) (filename : String) : Prog (Int × Int) := do
  let fd ← fopen env filename "r"
  if !fd then
    return (-1, 0)
  let vcomInMillivolts := env.scanned (← get_trace)
  let bytecount ← invoke env (Call.fscanf filename)
  fclose env filename
  if bytecount ≤ 0 then
    return (-1, vcomInMillivolts)
  return (0, vcomInMillivolts)

/-! ## The public operations -/

/-- Source: `set_vcom`, generic_epdc.c lines 222-227. -/
def set_vcom (env : Env) (p : pl_generic_epdc) (vcomInMillivolt : Int) : Prog Int := do
  let some hv := p.hv | abort
  let vcom_config := hv.vcomConfig
  if vcom_config.isNone then
    assert_failed env
  else
    invoke env (Call.vcomConfig_set_vcom vcomInMillivolt)

/-- Source: `epdc_init`, generic_epdc.c lines 80-213.  The test of
`p->controller` at line 114 comes after the assertion of line 86 on the
same pointer and can no longer fail. -/
def epdc_init (env : Env) (p : pl_generic_epdc) (load_nvm_content : Int) : Prog Int := do
  let mut stat : Int := 0
  -- initialize controller
  let some controller := p.controller | assert_failed env
  if controller.init then
    stat := bor stat (← invoke env (Call.init load_nvm_content))
  if stat ≠ 0 then
    return -1
  deref controller.update_temp
  let _ ← invoke env Call.update_temp
  -- initialize hv
  let some hv := p.hv | assert_failed env
  if hv.init then
    stat := bor stat (← invoke env Call.hv_init)
  if stat ≠ 0 then
    return -1
  -- load data from display NVM and apply its settings
  if load_nvm_content ≠ 0 then
    let some nvm := p.nvm | return -1
    if hv.vcomConfig.isNone then
      return -1
    -- read NVM content to file
    let (buffer, bufferSize) := env.wfdata (← get_trace)
    invoke_void Call.read_wfdata
    if bufferSize ≤ 0 then
      return -1
    match nvm.nvm_format with
    | pl_nvm_format.NVM_FORMAT_S040 =>
      -- unpack vcom and waveform data from NVM content
      if (← unpack_nvm_content env buffer bufferSize) ≠ 0 then
        return -1
      -- load vcom file and send data to vcomConfig
      let (r, vcomInMillivolts) ← read_vcom_from_file env "/tmp/vcom_from_display_nvm"
      if r ≠ 0 then
        return -1
      if (← invoke env (Call.vcomConfig_set_vcom vcomInMillivolts)) ≠ 0 then
        return -1
      -- load waveform file and send data to controller
      deref controller.update_temp
      if (← invoke env Call.update_temp) ≠ 0 then
        return -1
      if (← invoke env (Call.load_wflib "/tmp/waveform_from_display_nvm.bin")) ≠ 0 then
        return -1
    | pl_nvm_format.NVM_FORMAT_S1D13541 =>
      return -1
    | pl_nvm_format.NVM_FORMAT_EPSON =>
      let fd ← fopen env "/tmp/dummy.generic.wbf" "wb"
      if !fd then
        return -1
      let count ← fwrite env "/tmp/dummy.generic.wbf" buffer bufferSize
      fclose env "/tmp/dummy.generic.wbf"
      if count ≠ bufferSize then
        return -1
      if (← invoke env Call.read_header) ≠ 0 then
        return -1
      if (← invoke env (Call.vcomConfig_set_vcom nvm.vcom)) ≠ 0 then
        return -1
      -- load waveform file and send data to controller
      deref controller.update_temp
      if (← invoke env Call.update_temp) ≠ 0 then
        return -1
      if (← invoke env (Call.load_wflib "/tmp/dummy.generic.wbf")) ≠ 0 then
        return -1
    | pl_nvm_format.NVM_FORMAT_PLAIN =>
      let fd ← fopen env "/tmp/dummy.plain.bin" "wb"
      if !fd then
        return -1
      let count ← fwrite env "/tmp/dummy.plain.bin" buffer bufferSize
      fclose env "/tmp/dummy.plain.bin"
      if count ≠ bufferSize then
        return -1
  else
    -- load waveform and vcom from std paths
    if (← invoke env (Call.load_wflib controller.waveform_file_path)) ≠ 0 then
      return -1
    if (← set_vcom env p p.default_vcom) ≠ 0 then
      return -1
  return stat

/-- Source: `generic_update`, generic_epdc.c lines 288-324.  The update
mode is the numeric value of the `enum pl_update_mode` argument. -/
def generic_update (env : Env) (p : pl_generic_epdc) (wfID : Int) (mode : Int)
    (area : Option pl_area) : Prog Int := do
  let some controller := p.controller | assert_failed env
  let some hv := p.hv | assert_failed env
  let mut mode := mode
  let mut nowait := false
  if mode > 3 then
    mode := mode - 4
    nowait := true
  let mut stat : Int := 0
  if controller.temp_mode ≠ pl_epdc_temp_mode.PL_EPDC_TEMP_MANUAL then
    if controller.update_temp then
      stat := bor stat (← invoke env Call.update_temp)
  stat := bor stat (← invoke env (Call.configure_update wfID mode area))
  stat := bor stat (← switch_hvs_on env hv)
  stat := bor stat (← invoke env Call.trigger_update)
  if !nowait then
    stat := bor stat (← invoke env Call.wait_update_end)
    stat := bor stat (← switch_hvs_off env hv)
  return stat

/-- Source: `do_clear_update`, generic_epdc.c lines 333-364.  `hv` is
first used by `switch_hvs_on`, which reads through it without a test. -/
def do_clear_update (env : Env) (p : pl_generic_epdc) : Prog Int := do
  let some controller := p.controller | assert_failed env
  let mut stat : Int := 0
  if !controller.clear_update then
    return 0
  if controller.temp_mode ≠ pl_epdc_temp_mode.PL_EPDC_TEMP_MANUAL then
    if controller.update_temp then
      stat := bor stat (← invoke env Call.update_temp)
  if (← invoke env (Call.fill none 0xFF)) ≠ 0 then
    return -1
  let some hv := p.hv | abort
  stat := bor stat (← switch_hvs_on env hv)
  stat := bor stat (← invoke env Call.clear_update)
  stat := bor stat (← invoke env Call.wait_update_end)
  stat := bor stat (← switch_hvs_off env hv)
  return stat

/-! ## Observing a run -/

/-- The steps that a run adds to the trace. -/
def steps {α : Type} (m : Prog α) (w : World) : List Step :=
  (m w).2.trace.drop w.trace.length

/-- The statuses returned by the calls of a trace, in order. -/
def statuses : List Step → List Int
  | [] => []
  | Step.call _ s :: t => s :: statuses t
  | _ :: t => statuses t

/-- The calls of a trace, in order, without their statuses. -/
def calls : List Step → List Call
  | [] => []
  | Step.call c _ :: t => c :: calls t
  | Step.void c :: t => c :: calls t
  | _ :: t => calls t

/-- The bitwise or of a list of statuses. -/
def or_all (l : List Int) : Int := l.foldl bor 0

/-- A step of the body of `switch_hvs_on`. -/
def is_on_substep : Step → Bool
  | Step.call Call.hvDriver_switch_on _ => true
  | Step.call Call.vcomDriver_switch_on _ => true
  | Step.void Call.vcomSwitch_close => true
  | _ => false

/-- A step of the body of `switch_hvs_off`. -/
def is_off_substep : Step → Bool
  | Step.void Call.vcomSwitch_open => true
  | Step.call Call.vcomDriver_switch_off _ => true
  | Step.call Call.hvDriver_switch_off _ => true
  | _ => false

/-- The status that `switch_hvs_on` returns after the history `t`. -/
def hvs_on_stat (env : Env) (hv : pl_hv) (t : List Step) : Int :=
  ((switch_hvs_on env hv ⟨t, [], []⟩).1).getD 0

/-- The steps of `switch_hvs_on` after its entry, run after the history `t`. -/
def hvs_on_sub (env : Env) (hv : pl_hv) (t : List Step) : List Step :=
  (steps (switch_hvs_on env hv) ⟨t, [], []⟩).tail

/-- The status that `switch_hvs_off` returns after the history `t`. -/
def hvs_off_stat (env : Env) (hv : pl_hv) (t : List Step) : Int :=
  ((switch_hvs_off env hv ⟨t, [], []⟩).1).getD 0

/-- The steps of `switch_hvs_off` after its entry, run after the history `t`. -/
def hvs_off_sub (env : Env) (hv : pl_hv) (t : List Step) : List Step :=
  (steps (switch_hvs_off env hv) ⟨t, [], []⟩).tail

/-- Whether a step belongs to the tail of a waiting update: the wait for the
end of the update and the HV-off sequence. -/
def is_wait_or_hvs_off : Step → Bool
  | Step.call Call.wait_update_end _ => true
  | Step.hvs_off => true
  | s => is_off_substep s

/-! ## Sample collaborators -/

/-- Collaborators that all succeed: every status is 0, `fopen` returns a
stream, `fwrite` writes everything, the NVM holds ten bytes.  A failed
assertion returns the status -1. -/
def env_ok : Env :=
  ⟨fun _ c =>
      match c with
      | Call.fopen _ _ => 1
      | Call.fwrite _ n => n
      | Call.fscanf _ => 1
      | _ => 0,
    fun _ => ([1, 2, 3, 4, 5, 6, 7, 8, 9, 10], 10),
    fun _ => 1500,
    some ⟨-1, by decide⟩,
    fun _ => 0⟩

/-- Collaborators like `env_ok`, except that every `fclose` fails with
the status -1 after four of the buffered bytes have reached the file. -/
def env_fclose_fails : Env :=
  ⟨fun _ c =>
      match c with
      | Call.fopen _ _ => 1
      | Call.fwrite _ n => n
      | Call.fscanf _ => 1
      | Call.fclose _ => -1
      | _ => 0,
    fun _ => ([1, 2, 3, 4, 5, 6, 7, 8, 9, 10], 10),
    fun _ => 1500,
    some ⟨-1, by decide⟩,
    fun _ => 4⟩

/-- An HV subsystem with every component and capability, no bypass. -/
def hv_full : pl_hv :=
  ⟨true, some ⟨true, true⟩, some ⟨true, true⟩, some ⟨true, true, false⟩, some ⟨0⟩⟩

/-- A controller with every capability, temperature taken from a sensor. -/
def controller_full : pl_generic_controller :=
  ⟨true, true, true, pl_epdc_temp_mode.PL_EPDC_TEMP_EXTERNAL, "/boot/uboot/display/waveform.wbf"⟩

/-- An orchestrator with all three subsystems and an NVM of format PLAIN. -/
def epdc_full : pl_generic_epdc :=
  ⟨some hv_full, some ⟨pl_nvm_format.NVM_FORMAT_PLAIN, 4000⟩, some controller_full, 1500⟩

/-- The world before anything was called. -/
def world_start : World := ⟨[], [], []⟩

/-! ## Sequences of operations and the state of the HV rails -/

/-- A call of one of the two public operations that drive the panel. -/
inductive Op where
  | update (wfID : Int) (mode : Int) (area : Option pl_area)
  | clear_init
  deriving DecidableEq, Repr

/-- The caller invokes `p->update` or `p->clear_init`, the slots that
`generic_epdc_new` fills with `generic_update` and `do_clear_update`. -/
def run_op (env : Env) (p : pl_generic_epdc) : Op → Prog Int
  | Op.update wfID mode area => generic_update env p wfID mode area
  | Op.clear_init => do_clear_update env p

/-- A sequence of operations, one after the other; a run that was ended
runs no further operation. -/
def run_ops (env : Env) (p : pl_generic_epdc) : List Op → Prog Unit
  | [] => pure ()
  | op :: rest => do
    let _ ← run_op env p op
    run_ops env p rest

/-- Whether the HV rails are on after a trace, that is, whether an HV-on
sequence has run since the last HV-off sequence; `rails` is their state
before the trace. -/
def rails_on (rails : Bool) : List Step → Bool
  | [] => rails
  | Step.hvs_on :: t => rails_on true t
  | Step.hvs_off :: t => rails_on false t
  | _ :: t => rails_on rails t

/-- Whether the rails are off at every `configure_update` of a trace;
`rails` is their state before the trace. -/
def configured_with_rails_off (rails : Bool) : List Step → Bool
  | [] => true
  | Step.hvs_on :: t => configured_with_rails_off true t
  | Step.hvs_off :: t => configured_with_rails_off false t
  | Step.call (Call.configure_update _ _ _) _ :: t => !rails && configured_with_rails_off rails t
  | _ :: t => configured_with_rails_off rails t

/-- An operation that waits for the end of the update: `clear_init`, or
an update whose mode does not carry the no-wait flag. -/
def Op.waits : Op → Bool
  | Op.update _ mode _ => decide (mode ≤ 3)
  | Op.clear_init => true

/-- Whether a step is a call of the C library on a file: `fopen`,
`fwrite`, `fclose` or `fscanf`. -/
def is_file_io : Step → Bool
  | Step.call (Call.fopen _ _) _ => true
  | Step.call (Call.fwrite _ _) _ => true
  | Step.call (Call.fclose _) _ => true
  | Step.call (Call.fscanf _) _ => true
  | _ => false

/-- An HV subsystem with its drivers and switch but without the
VCOM-configuration capability. -/
def hv_without_vcom_config : pl_hv :=
  ⟨true, some ⟨true, true⟩, some ⟨true, true⟩, some ⟨true, true, false⟩, none⟩

/-- An orchestrator with a controller, an HV subsystem without
VCOM configuration, no NVM, and the default VCOM 1500 mV. -/
def epdc_without_vcom_config : pl_generic_epdc :=
  ⟨some hv_without_vcom_config, none, some controller_full, 1500⟩

/-- An orchestrator whose NVM has the format S1D13541. -/
def epdc_s1d13541 : pl_generic_epdc :=
  ⟨some hv_full, some ⟨pl_nvm_format.NVM_FORMAT_S1D13541, 4000⟩, some controller_full, 1500⟩

/-- A controller without the `clear_update` capability, temperature from
its internal sensor. -/
def controller_without_clear : pl_generic_controller :=
  ⟨true, true, false, pl_epdc_temp_mode.PL_EPDC_TEMP_INTERNAL,
    "/boot/uboot/display/waveform.wbf"⟩

/-- An orchestrator on the controller without `clear_update`. -/
def epdc_without_clear : pl_generic_epdc :=
  ⟨some hv_full, none, some controller_without_clear, 1500⟩

/-- The shape of a complete clear sequence: after the temperature
resample, if any, `fill` of the whole panel with 0xFF, the HV-on
sequence, `clear_update`, `wait_update_end` and the HV-off sequence, in
this order. -/
def clear_sequence (d : List Step) : Prop :=
  ∃ pre sf hon sc sw hoff,
    d = pre ++ Step.call (Call.fill none 0xFF) sf :: Step.hvs_on :: hon
          ++ Step.call Call.clear_update sc :: Step.call Call.wait_update_end sw
            :: Step.hvs_off :: hoff ∧
    (∀ s ∈ pre, ∃ st, s = Step.call Call.update_temp st) ∧
    (∀ s ∈ hon, is_on_substep s = true) ∧
    (∀ s ∈ hoff, is_off_substep s = true)

/-- Collaborators that all succeed, except that `fill` returns 1. -/
def env_fill_fails : Env :=
  ⟨fun _ c =>
      match c with
      | Call.fill _ _ => 1
      | _ => 0,
    fun _ => ([], 0),
    fun _ => 0,
    some ⟨-1, by decide⟩,
    fun _ => 0⟩

/-- Collaborators that all succeed, with an NVM that reports no data:
an empty buffer and the byte count 0. -/
def env_empty_nvm : Env :=
  ⟨fun _ c =>
      match c with
      | Call.fopen _ _ => 1
      | Call.fwrite _ n => n
      | _ => 0,
    fun _ => ([], 0),
    fun _ => 0,
    some ⟨-1, by decide⟩,
    fun _ => 0⟩

/-- The modes handed to `configure_update` in a trace, in order. -/
def configured_modes : List Step → List Int
  | [] => []
  | Step.call (Call.configure_update _ mode _) _ :: t => mode :: configured_modes t
  | _ :: t => configured_modes t

/-- The shape of a complete waiting update for the arguments given:
after the steps `pre`, `configure_update` with these arguments, the
HV-on sequence, `trigger_update`, `wait_update_end` and the HV-off
sequence, in this order. -/
def update_sequence (pre : List Step) (wfID mode : Int) (area : Option pl_area)
    (d : List Step) : Prop :=
  ∃ sc hon st sw hoff,
    d = pre ++ Step.call (Call.configure_update wfID mode area) sc :: Step.hvs_on :: hon
          ++ Step.call Call.trigger_update st :: Step.call Call.wait_update_end sw
            :: Step.hvs_off :: hoff ∧
    (∀ s ∈ hon, is_on_substep s = true) ∧
    (∀ s ∈ hoff, is_off_substep s = true)

/-! ## Postconditions of runs -/

/-- The outcome of the run `m` from the world `w` satisfies `Q`: `Q` is
given the value (`none` for a run that was ended) and the world reached. -/
def wp {α : Type} (m : Prog α) (w : World) (Q : Option α → World → Prop) : Prop :=
  Q (m w).1 (m w).2

/-- Collaborators that all succeed, except that controller init returns
the status 1. -/
def env_init_fails : Env :=
  ⟨fun _ c =>
      match c with
      | Call.init _ => 1
      | _ => 0,
    fun _ => ([], 0),
    fun _ => 0,
    some ⟨-1, by decide⟩,
    fun _ => 0⟩

/-- An orchestrator whose NVM has the format EPSON and reports the VCOM
value 4000. -/
def epdc_epson : pl_generic_epdc :=
  ⟨some hv_full, some ⟨pl_nvm_format.NVM_FORMAT_EPSON, 4000⟩, some controller_full, 1500⟩

/-- Modelled from the spec: the calls of the EPSON path of `init`, in
order, for the NVM-reported VCOM value `vcom` and a blob of `n` bytes:
persisting the blob (`fopen`, `fwrite`, `fclose` on
`/tmp/dummy.generic.wbf`), `read_header`, `set_vcom`, `update_temp`,
`load_wflib`. -/
def epson_calls (vcom n : Int) : List Call :=
  [Call.fopen "/tmp/dummy.generic.wbf" "wb",
   Call.fwrite "/tmp/dummy.generic.wbf" n,
   Call.fclose "/tmp/dummy.generic.wbf",
   Call.read_header,
   Call.vcomConfig_set_vcom vcom,
   Call.update_temp,
   Call.load_wflib "/tmp/dummy.generic.wbf"]

/-- Modelled from the spec: the statuses `ss` of the calls made on the
EPSON path, and the result `r`, when the path stops at the first step
that fails and returns failure, and returns 0 when all steps succeed.
Persisting fails when `fopen` returns no stream (status 0) or `fwrite`
reports a count other than `n`; the status of `fclose` is not read. -/
def epson_outcome (n : Int) (ss : List Int) (r : Option Int) : Prop :=
  match ss with
  | [so] => so = 0 ∧ r = some (-1)
  | [so, sw, _] => so ≠ 0 ∧ sw ≠ n ∧ r = some (-1)
  | [so, sw, _, sh] => so ≠ 0 ∧ sw = n ∧ sh ≠ 0 ∧ r = some (-1)
  | [so, sw, _, sh, sv] => so ≠ 0 ∧ sw = n ∧ sh = 0 ∧ sv ≠ 0 ∧ r = some (-1)
  | [so, sw, _, sh, sv, su] =>
      so ≠ 0 ∧ sw = n ∧ sh = 0 ∧ sv = 0 ∧ su ≠ 0 ∧ r = some (-1)
  | [so, sw, _, sh, sv, su, sl] =>
      so ≠ 0 ∧ sw = n ∧ sh = 0 ∧ sv = 0 ∧ su = 0 ∧
        ((sl ≠ 0 ∧ r = some (-1)) ∨ (sl = 0 ∧ r = some 0))
  | _ => False

/-! ## Lemmas on the bitwise or and on the HV sequences -/

theorem nat_lor_eq_zero (m n : Nat) : m ||| n = 0 ↔ m = 0 ∧ n = 0 := by
  constructor
  · intro h
    constructor
    · apply Nat.eq_of_testBit_eq
      intro i
      have := congrArg (fun x => x.testBit i) h
      simp [Nat.testBit_or] at this
      simp [this.1]
    · apply Nat.eq_of_testBit_eq
      intro i
      have := congrArg (fun x => x.testBit i) h
      simp [Nat.testBit_or] at this
      simp [this.2]
  · rintro ⟨rfl, rfl⟩
    rfl

theorem nat_ldiff_zero (n : Nat) : Nat.ldiff n 0 = n := by
  apply Nat.eq_of_testBit_eq
  intro i
  simp [Nat.testBit_ldiff]

theorem nat_zero_ldiff (n : Nat) : Nat.ldiff 0 n = 0 := by
  apply Nat.eq_of_testBit_eq
  intro i
  simp [Nat.testBit_ldiff]

theorem bor_eq_zero (a b : Int) : bor a b = 0 ↔ a = 0 ∧ b = 0 := by
  cases a <;> cases b <;> simp [bor, Int.lor, nat_lor_eq_zero]

theorem bor_zero_left (a : Int) : bor 0 a = a := by
  cases a <;> simp [bor, Int.lor, nat_ldiff_zero]

theorem bor_zero_right (a : Int) : bor a 0 = a := by
  cases a <;> simp [bor, Int.lor, nat_ldiff_zero]

theorem bor_assoc (a b c : Int) : bor (bor a b) c = bor a (bor b c) := by
  cases a <;> cases b <;> cases c <;> simp only [bor, Int.lor, Int.ofNat_eq_coe] <;>
    (try rw [Int.negSucc_inj]) <;> (try rw [Int.ofNat_inj]) <;>
    (apply Nat.eq_of_testBit_eq; intro i; simp [Nat.testBit_ldiff, Nat.testBit_or, Nat.testBit_and]) <;>
    (cases Nat.testBit _ i <;> cases Nat.testBit _ i <;> cases Nat.testBit _ i <;> rfl)

theorem switch_hvs_on_eq (env : Env) (hv : pl_hv) (w : World) :
    switch_hvs_on env hv w
      = (some (hvs_on_stat env hv w.trace),
          ⟨w.trace ++ Step.hvs_on :: hvs_on_sub env hv w.trace, w.files, w.streams⟩) := by
  unfold hvs_on_stat hvs_on_sub steps switch_hvs_on
  cases has hv.hvDriver _ <;> cases has hv.vcomDriver _ <;> cases has hv.vcomSwitch _ <;>
    simp [bind, Prog.bind, pure, mark, invoke, invoke_void]

theorem switch_hvs_off_eq (env : Env) (hv : pl_hv) (w : World) :
    switch_hvs_off env hv w
      = (some (hvs_off_stat env hv w.trace),
          ⟨w.trace ++ Step.hvs_off :: hvs_off_sub env hv w.trace, w.files, w.streams⟩) := by
  unfold hvs_off_stat hvs_off_sub steps switch_hvs_off
  cases has hv.hvDriver _ <;> cases has hv.vcomDriver _ <;> cases has hv.vcomSwitch _ <;>
    simp [bind, Prog.bind, pure, mark, invoke, invoke_void]

theorem hvs_on_sub_substep (env : Env) (hv : pl_hv) (t : List Step) :
    ∀ s ∈ hvs_on_sub env hv t, is_on_substep s = true := by
  unfold hvs_on_sub steps switch_hvs_on
  cases has hv.hvDriver _ <;> cases has hv.vcomDriver _ <;> cases has hv.vcomSwitch _ <;>
    simp [bind, Prog.bind, pure, mark, invoke, invoke_void, is_on_substep]

theorem hvs_off_sub_substep (env : Env) (hv : pl_hv) (t : List Step) :
    ∀ s ∈ hvs_off_sub env hv t, is_off_substep s = true := by
  unfold hvs_off_sub steps switch_hvs_off
  cases has hv.hvDriver _ <;> cases has hv.vcomDriver _ <;> cases has hv.vcomSwitch _ <;>
    simp [bind, Prog.bind, pure, mark, invoke, invoke_void, is_off_substep]

theorem hvs_on_stat_eq (env : Env) (hv : pl_hv) (t : List Step) :
    hvs_on_stat env hv t = or_all (statuses (hvs_on_sub env hv t)) := by
  unfold hvs_on_stat hvs_on_sub steps switch_hvs_on
  cases has hv.hvDriver _ <;> cases has hv.vcomDriver _ <;> cases has hv.vcomSwitch _ <;>
    simp [bind, Prog.bind, pure, mark, invoke, invoke_void, statuses, or_all]

theorem hvs_off_stat_eq (env : Env) (hv : pl_hv) (t : List Step) :
    hvs_off_stat env hv t = or_all (statuses (hvs_off_sub env hv t)) := by
  unfold hvs_off_stat hvs_off_sub steps switch_hvs_off
  cases has hv.hvDriver _ <;> cases has hv.vcomDriver _ <;> cases has hv.vcomSwitch _ <;>
    simp [bind, Prog.bind, pure, mark, invoke, invoke_void, statuses, or_all]

theorem filter_on_sub (env : Env) (hv : pl_hv) (t : List Step) :
    (hvs_on_sub env hv t).filter (fun s => !is_wait_or_hvs_off s) = hvs_on_sub env hv t := by
  rw [List.filter_eq_self]
  intro s hs
  have := hvs_on_sub_substep env hv t s hs
  revert this
  cases s with
  | call c r => cases c <;> simp [is_on_substep, is_wait_or_hvs_off, is_off_substep]
  | void c => cases c <;> simp [is_on_substep, is_wait_or_hvs_off, is_off_substep]
  | hvs_on => simp [is_on_substep]
  | hvs_off => simp [is_on_substep]

theorem filter_off_sub (env : Env) (hv : pl_hv) (t : List Step) :
    (hvs_off_sub env hv t).filter (fun s => !is_wait_or_hvs_off s) = [] := by
  rw [List.filter_eq_nil_iff]
  intro s hs
  have := hvs_off_sub_substep env hv t s hs
  revert this
  cases s with
  | call c r => cases c <;> simp [is_wait_or_hvs_off, is_off_substep]
  | void c => cases c <;> simp [is_wait_or_hvs_off, is_off_substep]
  | hvs_on => simp [is_off_substep]
  | hvs_off => simp [is_off_substep]


/-! ## C1: the no-wait variants of an update -/

/-- C1, as stated, fails at mode 8: the run with mode 8 hands mode 4 to
`configure_update`, the run with mode 8 - 4 hands it mode 0, so the two
runs do not issue the same calls with the same arguments. -/
theorem generic_update_nowait_mode8_differs :
    (4 : Int) ≤ 8 ∧
    steps (generic_update env_ok epdc_full 1 8 none) world_start
      ≠ (steps (generic_update env_ok epdc_full 1 (8 - 4) none) world_start).filter
          (fun s => !is_wait_or_hvs_off s) := by
  decide

/-- C1, amended: for every update mode `m` from 4 to 7, every waveform
id, area, collaborator behaviour and world, `generic_update` with mode
`m` issues exactly the steps (calls, arguments, statuses, order) that
`generic_update` with mode `m - 4` issues, except that `wait_update_end`
and the HV-off sequence are left out. -/
theorem generic_update_nowait_skips_wait_and_hvs_off (env : Env) (p : pl_generic_epdc)
    (wfID : Int) (area : Option pl_area) (w : World) (m : Int) (h4 : 4 ≤ m) (h7 : m ≤ 7) :
    steps (generic_update env p wfID m area) w
      = (steps (generic_update env p wfID (m - 4) area) w).filter
          (fun s => !is_wait_or_hvs_off s) := by
  have h1 : m > 3 := by omega
  have h2 : ¬ (m - 4 > 3) := by omega
  have e1 : ∀ s, is_wait_or_hvs_off (Step.call Call.trigger_update s) = false := fun _ => rfl
  have e2 : ∀ a b c s, is_wait_or_hvs_off (Step.call (Call.configure_update a b c) s) = false :=
    fun _ _ _ _ => rfl
  have e3 : ∀ s, is_wait_or_hvs_off (Step.call Call.update_temp s) = false := fun _ => rfl
  have e4 : is_wait_or_hvs_off Step.hvs_on = false := rfl
  have e5 : is_wait_or_hvs_off Step.hvs_off = true := rfl
  have e6 : ∀ s, is_wait_or_hvs_off (Step.call Call.wait_update_end s) = true := fun _ => rfl
  unfold generic_update steps
  cases hc : p.controller with
  | none => simp [abort, assert_failed]
  | some c =>
    cases hh : p.hv with
    | none => simp [abort, assert_failed]
    | some hv =>
      by_cases ht : c.temp_mode = pl_epdc_temp_mode.PL_EPDC_TEMP_MANUAL <;>
      cases hu : c.update_temp <;>
      simp [bind, Prog.bind, pure, invoke, h1, h2, ht, hu, switch_hvs_on_eq, switch_hvs_off_eq,
        List.filter_append, filter_on_sub, filter_off_sub, List.filter_cons, e1, e2, e3, e4, e5, e6]

/-- Witness of C1, amended, at mode 5: the run issues `update_temp`,
`configure_update` with mode 1, the HV-on sequence and `trigger_update`. -/
theorem generic_update_nowait_skips_wait_and_hvs_off_witness :
    ((4 : Int) ≤ 5 ∧ (5 : Int) ≤ 7) ∧
    steps (generic_update env_ok epdc_full 1 5 none) world_start
      = (steps (generic_update env_ok epdc_full 1 (5 - 4) none) world_start).filter
          (fun s => !is_wait_or_hvs_off s) :=
  ⟨by decide,
    generic_update_nowait_skips_wait_and_hvs_off env_ok epdc_full 1 none world_start 5
      (by decide) (by decide)⟩

/-! ## C2: the two HV sequences mirror each other -/

/-- C2: when the HV driver, the VCOM driver and the VCOM switch are
present with their capabilities, `switch_hvs_on` calls
`hvDriver.switch_on`, `vcomDriver.switch_on`, `vcomSwitch.close` in this
order and `switch_hvs_off` calls `vcomSwitch.open`,
`vcomDriver.switch_off`, `hvDriver.switch_off` in this order; when
`is_bypass` is set, `close` and `open` are left out and the driver calls
stay. -/
theorem switch_hvs_on_off_mirror (env : Env) (hv : pl_hv) (w : World)
    (d : pl_hv_driver) (v : pl_vcom_driver) (s : pl_vcom_switch)
    (hd : hv.hvDriver = some d) (hd_on : d.switch_on = true) (hd_off : d.switch_off = true)
    (hvd : hv.vcomDriver = some v) (hv_on : v.switch_on = true) (hv_off : v.switch_off = true)
    (hs : hv.vcomSwitch = some s) (hs_close : s.close = true) (hs_open : s.open_ = true) :
    calls (steps (switch_hvs_on env hv) w)
        = (if s.is_bypass then [Call.hvDriver_switch_on, Call.vcomDriver_switch_on]
           else [Call.hvDriver_switch_on, Call.vcomDriver_switch_on, Call.vcomSwitch_close]) ∧
    calls (steps (switch_hvs_off env hv) w)
        = (if s.is_bypass then [Call.vcomDriver_switch_off, Call.hvDriver_switch_off]
           else [Call.vcomSwitch_open, Call.vcomDriver_switch_off, Call.hvDriver_switch_off]) := by
  unfold switch_hvs_on switch_hvs_off steps
  cases hb : s.is_bypass <;>
    simp [has, hd, hd_on, hd_off, hvd, hv_on, hv_off, hs, hs_close, hs_open, hb,
      bind, Prog.bind, pure, mark, invoke, invoke_void, calls]

/-- Witness of C2 on the HV subsystem `hv_full`. -/
theorem switch_hvs_on_off_mirror_witness :
    calls (steps (switch_hvs_on env_ok hv_full) world_start)
        = [Call.hvDriver_switch_on, Call.vcomDriver_switch_on, Call.vcomSwitch_close] ∧
    calls (steps (switch_hvs_off env_ok hv_full) world_start)
        = [Call.vcomSwitch_open, Call.vcomDriver_switch_off, Call.hvDriver_switch_off] :=
  switch_hvs_on_off_mirror env_ok hv_full world_start ⟨true, true⟩ ⟨true, true⟩ ⟨true, true, false⟩
    rfl rfl rfl rfl rfl rfl rfl rfl rfl

/-! ## Lemmas on the state of the rails -/

theorem rails_on_append (b : Bool) (l1 l2 : List Step) :
    rails_on b (l1 ++ l2) = rails_on (rails_on b l1) l2 := by
  induction l1 generalizing b with
  | nil => rfl
  | cons s t ih =>
    cases s with
    | call c r => simp [rails_on, ih]
    | void c => simp [rails_on, ih]
    | hvs_on => simp [rails_on, ih]
    | hvs_off => simp [rails_on, ih]

theorem configured_with_rails_off_append (b : Bool) (l1 l2 : List Step) :
    configured_with_rails_off b (l1 ++ l2)
      = (configured_with_rails_off b l1 && configured_with_rails_off (rails_on b l1) l2) := by
  induction l1 generalizing b with
  | nil => simp [configured_with_rails_off, rails_on]
  | cons s t ih =>
    cases s with
    | call c r =>
      cases c <;> simp [configured_with_rails_off, rails_on, ih, Bool.and_assoc]
    | void c => simp [configured_with_rails_off, rails_on, ih]
    | hvs_on => simp [configured_with_rails_off, rails_on, ih]
    | hvs_off => simp [configured_with_rails_off, rails_on, ih]

theorem rails_on_substeps (b : Bool) (l : List Step)
    (h : ∀ s ∈ l, is_on_substep s = true ∨ is_off_substep s = true) :
    rails_on b l = b ∧ configured_with_rails_off b l = true := by
  induction l with
  | nil => simp [rails_on, configured_with_rails_off]
  | cons s t ih =>
    have hs := h s (List.mem_cons_self s t)
    have ht := ih (fun x hx => h x (List.mem_cons_of_mem s hx))
    cases s with
    | call c r =>
      cases c <;> simp_all [rails_on, configured_with_rails_off, is_on_substep, is_off_substep]
    | void c => simp_all [rails_on, configured_with_rails_off]
    | hvs_on => simp [is_on_substep, is_off_substep] at hs
    | hvs_off => simp [is_on_substep, is_off_substep] at hs

theorem rails_on_hvs_on_sub (env : Env) (hv : pl_hv) (t : List Step) (b : Bool) :
    rails_on b (hvs_on_sub env hv t) = b ∧
      configured_with_rails_off b (hvs_on_sub env hv t) = true :=
  rails_on_substeps b _ (fun s hs => Or.inl (hvs_on_sub_substep env hv t s hs))

theorem rails_on_hvs_off_sub (env : Env) (hv : pl_hv) (t : List Step) (b : Bool) :
    rails_on b (hvs_off_sub env hv t) = b ∧
      configured_with_rails_off b (hvs_off_sub env hv t) = true :=
  rails_on_substeps b _ (fun s hs => Or.inr (hvs_off_sub_substep env hv t s hs))

theorem run_op_waits_rails (env : Env) (p : pl_generic_epdc) (op : Op) (w : World)
    (hop : op.waits = true) :
    ∃ d, (run_op env p op w).2.trace = w.trace ++ d ∧
      configured_with_rails_off false d = true ∧ rails_on false d = false := by
  cases op with
  | update wfID mode area =>
    have hm : ¬ (mode > 3) := by simpa [Op.waits] using hop
    unfold run_op generic_update
    cases hc : p.controller with
    | none => exact ⟨[], by simp [abort, assert_failed], rfl, rfl⟩
    | some c =>
      cases hh : p.hv with
      | none => exact ⟨[], by simp [abort, assert_failed], rfl, rfl⟩
      | some hv =>
        by_cases ht : c.temp_mode = pl_epdc_temp_mode.PL_EPDC_TEMP_MANUAL <;>
        cases hu : c.update_temp <;>
        simp only [bind, Prog.bind, pure, invoke, hm, ht, hu, switch_hvs_on_eq, switch_hvs_off_eq,
          List.append_assoc, ne_eq, not_true_eq_false, not_false_eq_true, if_true, if_false,
          Bool.not_false, Bool.false_eq_true, List.singleton_append, List.cons_append] <;>
        refine ⟨_, rfl, ?_, ?_⟩ <;>
        simp [configured_with_rails_off, rails_on, configured_with_rails_off_append,
          rails_on_append, rails_on_hvs_on_sub, rails_on_hvs_off_sub]
  | clear_init =>
    unfold run_op do_clear_update
    cases hc : p.controller with
    | none => exact ⟨[], by simp [abort, assert_failed], rfl, rfl⟩
    | some c =>
      cases hcl : c.clear_update with
      | false => exact ⟨[], by simp [hcl, bind, Prog.bind, pure], rfl, rfl⟩
      | true =>
        cases hh : p.hv <;>
        by_cases ht : c.temp_mode = pl_epdc_temp_mode.PL_EPDC_TEMP_MANUAL <;>
        cases hu : c.update_temp <;>
        simp only [bind, Prog.bind, pure, invoke, hcl, ht, hu, switch_hvs_on_eq, switch_hvs_off_eq,
          List.append_assoc, ne_eq, not_true_eq_false, not_false_eq_true, if_true, if_false,
          Bool.not_false, Bool.not_true, Bool.false_eq_true, List.singleton_append,
          List.cons_append, abort, assert_failed] <;>
        split_ifs <;>
        simp only [bind, Prog.bind, pure, invoke, switch_hvs_on_eq, switch_hvs_off_eq,
          List.append_assoc, List.singleton_append, List.cons_append, abort, assert_failed] <;>
        refine ⟨_, rfl, ?_, ?_⟩ <;>
        simp [configured_with_rails_off, rails_on, configured_with_rails_off_append,
          rails_on_append, rails_on_hvs_on_sub, rails_on_hvs_off_sub]

theorem run_ops_waits_rails (env : Env) (p : pl_generic_epdc) (ops : List Op) :
    (∀ op ∈ ops, op.waits = true) → ∀ w : World,
    ∃ d, (run_ops env p ops w).2.trace = w.trace ++ d ∧
      configured_with_rails_off false d = true ∧ rails_on false d = false := by
  induction ops with
  | nil => intro _ w; exact ⟨[], by simp [run_ops, pure], rfl, rfl⟩
  | cons op rest ih =>
    intro h w
    obtain ⟨d1, h1, hc1, hr1⟩ := run_op_waits_rails env p op w (h op (List.mem_cons_self op rest))
    have ih2 := ih (fun x hx => h x (List.mem_cons_of_mem op hx))
    simp only [run_ops, bind, Prog.bind]
    cases hrun : run_op env p op w with
    | mk r w1 =>
      rw [hrun] at h1
      cases r with
      | none => exact ⟨d1, h1, hc1, hr1⟩
      | some a =>
        obtain ⟨d2, h2, hc2, hr2⟩ := ih2 w1
        refine ⟨d1 ++ d2, ?_, ?_, ?_⟩
        · simp only [h2]; rw [h1, List.append_assoc]
        · rw [configured_with_rails_off_append, hc1, hr1, hc2]; rfl
        · rw [rails_on_append, hr1, hr2]

/-! ## C3: the state of the HV rails when the controller is configured -/

/-- C3, as stated, fails: after an update with the no-wait mode 4 the HV
rails stay on, and the next update configures the controller with the
rails on. -/
theorem configure_update_after_nowait_rails_on :
    configured_with_rails_off false
      (steps (run_ops env_ok epdc_full [Op.update 1 4 none, Op.update 1 0 none]) world_start)
      = false := by
  simp only [run_ops, run_op]
  decide

/-- C3, amended: for every sequence of `clear_init` calls and of updates
whose mode does not carry the no-wait flag (mode at most 3), every
orchestrator and every collaborator behaviour, starting with the HV
rails off, the rails are off (no HV-on sequence has run since the last
HV-off sequence) each time `configure_update` is invoked. -/
theorem configure_update_with_rails_off (env : Env) (p : pl_generic_epdc) (ops : List Op)
    (w : World) (hops : ∀ op ∈ ops, op.waits = true) :
    configured_with_rails_off false (steps (run_ops env p ops) w) = true := by
  obtain ⟨d, h, hc, _⟩ := run_ops_waits_rails env p ops hops w
  unfold steps
  rw [h, List.drop_left]
  exact hc

/-- Witness of C3, amended: a clear, a full update and a partial update. -/
theorem configure_update_with_rails_off_witness :
    configured_with_rails_off false
      (steps (run_ops env_ok epdc_full
        [Op.clear_init, Op.update 1 0 none, Op.update 2 1 none]) world_start) = true :=
  configure_update_with_rails_off env_ok epdc_full
    [Op.clear_init, Op.update 1 0 none, Op.update 2 1 none] world_start (by decide)

/-! ## Lemmas on the accumulated status -/

theorem statuses_append (l1 l2 : List Step) :
    statuses (l1 ++ l2) = statuses l1 ++ statuses l2 := by
  induction l1 with
  | nil => rfl
  | cons s t ih => cases s <;> simp [statuses, ih]

theorem foldl_bor (x : Int) (l : List Int) : l.foldl bor x = bor x (l.foldl bor 0) := by
  induction l generalizing x with
  | nil => simp [bor_zero_right]
  | cons a t ih =>
    simp only [List.foldl_cons]
    rw [ih (bor x a), ih (bor 0 a), bor_zero_left, bor_assoc]

theorem or_all_nil : or_all [] = 0 := rfl

theorem or_all_cons (a : Int) (l : List Int) : or_all (a :: l) = bor a (or_all l) := by
  unfold or_all
  simp only [List.foldl_cons]
  rw [foldl_bor, bor_zero_left]

theorem or_all_append (l1 l2 : List Int) : or_all (l1 ++ l2) = bor (or_all l1) (or_all l2) := by
  unfold or_all
  rw [List.foldl_append, foldl_bor]

theorem or_all_eq_zero (l : List Int) : or_all l = 0 ↔ ∀ s ∈ l, s = 0 := by
  induction l with
  | nil => simp [or_all_nil]
  | cons a t ih => simp [or_all_cons, bor_eq_zero, ih]

theorem statuses_nil : statuses [] = [] := rfl

theorem statuses_call (c : Call) (s : Int) (t : List Step) :
    statuses (Step.call c s :: t) = s :: statuses t := rfl

theorem statuses_hvs_on (t : List Step) : statuses (Step.hvs_on :: t) = statuses t := rfl

theorem statuses_hvs_off (t : List Step) : statuses (Step.hvs_off :: t) = statuses t := rfl

/-- With a controller and an HV subsystem, `generic_update` returns the
bitwise or of the statuses of all the calls it made. -/
theorem generic_update_result (env : Env) (p : pl_generic_epdc) (wfID mode : Int)
    (area : Option pl_area) (w : World) (c : pl_generic_controller) (hv : pl_hv)
    (hc : p.controller = some c) (hh : p.hv = some hv) :
    (generic_update env p wfID mode area w).1
      = some (or_all (statuses (steps (generic_update env p wfID mode area) w))) := by
  unfold generic_update steps
  by_cases hm : mode > 3 <;>
  by_cases ht : c.temp_mode = pl_epdc_temp_mode.PL_EPDC_TEMP_MANUAL <;>
  cases hu : c.update_temp <;>
  simp [hc, hh, bind, Prog.bind, pure, invoke, hm, ht, hu, switch_hvs_on_eq, switch_hvs_off_eq,
    statuses_append, statuses_call, statuses_hvs_on, statuses_hvs_off, statuses_nil,
    or_all_append, or_all_cons, or_all_nil, hvs_on_stat_eq, hvs_off_stat_eq,
    bor_zero_left, bor_zero_right, bor_assoc]

/-! ## C4: the status of an update -/

/-- C4: with the controller and the HV subsystem that `generic_update`
asserts, for every mode, waveform id, area and collaborator behaviour,
`generic_update` returns 0 if and only if every call it made that returns
a status (temperature resample, `configure_update`, the driver calls of
the HV-on sequence, `trigger_update`, and when waiting `wait_update_end`
and the driver calls of the HV-off sequence) returned 0. -/
theorem generic_update_zero_iff_all_zero (env : Env) (p : pl_generic_epdc) (wfID mode : Int)
    (area : Option pl_area) (w : World) (c : pl_generic_controller) (hv : pl_hv)
    (hc : p.controller = some c) (hh : p.hv = some hv) :
    (generic_update env p wfID mode area w).1 = some 0 ↔
      ∀ s ∈ statuses (steps (generic_update env p wfID mode area) w), s = 0 := by
  rw [generic_update_result env p wfID mode area w c hv hc hh, ← or_all_eq_zero]
  simp

/-- Witness of C4 on the orchestrator `epdc_full` with mode 0. -/
theorem generic_update_zero_iff_all_zero_witness :
    (generic_update env_ok epdc_full 1 0 none world_start).1 = some 0 ↔
      ∀ s ∈ statuses (steps (generic_update env_ok epdc_full 1 0 none) world_start), s = 0 :=
  generic_update_zero_iff_all_zero env_ok epdc_full 1 0 none world_start controller_full hv_full
    rfl rfl

/-! ## C5: `set_vcom` without a VCOM configuration -/

/-- C5: when the HV subsystem has no VCOM-configuration capability,
`set_vcom` does not report success for any millivolt value and it invokes
no capability of the HV, controller or NVM subsystem: the world, trace
included, is unchanged.  What it yields is what the failed assertion of
line 225 yields: its nonzero status, or no value when the assertion ends
the run. -/
theorem set_vcom_without_vcom_config (env : Env) (p : pl_generic_epdc) (hv : pl_hv)
    (vcomInMillivolt : Int) (w : World) (hh : p.hv = some hv) (hvc : hv.vcomConfig = none) :
    (set_vcom env p vcomInMillivolt w).1 ≠ some 0 ∧
    (set_vcom env p vcomInMillivolt w).1 = env.assert_status.map (fun k => k.1) ∧
    steps (set_vcom env p vcomInMillivolt) w = [] ∧
    (set_vcom env p vcomInMillivolt w).2 = w := by
  refine ⟨?_, ?_, ?_, ?_⟩
  · cases hk : env.assert_status with
    | none => simp [set_vcom, hh, hvc, assert_failed, hk]
    | some k => simpa [set_vcom, hh, hvc, assert_failed, hk] using k.2
  all_goals simp [set_vcom, steps, hh, hvc, assert_failed]

/-- Witness of C5: the orchestrator `epdc_without_vcom_config` asked for
1500 mV, with a failed assertion that returns the status -1. -/
theorem set_vcom_without_vcom_config_witness :
    (set_vcom env_ok epdc_without_vcom_config 1500 world_start).1 ≠ some 0 ∧
    (set_vcom env_ok epdc_without_vcom_config 1500 world_start).1
      = env_ok.assert_status.map (fun k => k.1) ∧
    steps (set_vcom env_ok epdc_without_vcom_config 1500) world_start = [] ∧
    (set_vcom env_ok epdc_without_vcom_config 1500 world_start).2 = world_start :=
  set_vcom_without_vcom_config env_ok epdc_without_vcom_config hv_without_vcom_config 1500
    world_start rfl rfl

/-! ## C6: `init` from an NVM of format S1D13541 -/

/-- C6: with controller and HV subsystem present and an NVM of format
S1D13541, for every behaviour of the collaborators, `epdc_init` with
`load_nvm_content` set never returns 0, returns the nonzero status -1
whenever the controller has the `update_temp` that line 92 calls
unchecked, and never opens, writes, closes or reads a file: no call of
`fopen`, `fwrite`, `fclose` or `fscanf` is made and the files are
unchanged. -/
theorem epdc_init_s1d13541 (env : Env) (p : pl_generic_epdc) (load_nvm_content : Int)
    (w : World) (c : pl_generic_controller) (hv : pl_hv) (nvm : pl_nvm)
    (hc : p.controller = some c) (hh : p.hv = some hv) (hn : p.nvm = some nvm)
    (hf : nvm.nvm_format = pl_nvm_format.NVM_FORMAT_S1D13541) (hl : load_nvm_content ≠ 0) :
    (epdc_init env p load_nvm_content w).1 ≠ some 0 ∧
    (c.update_temp = true → (epdc_init env p load_nvm_content w).1 = some (-1)) ∧
    (∀ s ∈ steps (epdc_init env p load_nvm_content) w, is_file_io s = false) ∧
    (epdc_init env p load_nvm_content w).2.files = w.files := by
  unfold epdc_init steps
  cases hi : c.init <;> cases hu : c.update_temp <;> cases hhi : hv.init <;>
    cases hvc : hv.vcomConfig <;>
    simp only [hc, hh, hn, hf, hl, hi, hu, hhi, hvc, bind, Prog.bind, pure, invoke, invoke_void,
      deref, abort, assert_failed, get_trace, bor_zero_left, ne_eq, not_false_eq_true, not_true_eq_false,
      if_true, if_false, Bool.false_eq_true, Option.isNone_none, Option.isNone_some]
  iterate 3
    all_goals (try split_ifs)
    all_goals (try simp only [bind, Prog.bind, pure, invoke, invoke_void, get_trace, abort, assert_failed, deref,
      if_true, if_false, Bool.false_eq_true])
  all_goals simp [bind, Prog.bind, pure, invoke, invoke_void, get_trace, abort, assert_failed, deref, is_file_io]

/-- Witness of C6 on the orchestrator `epdc_s1d13541` with
`load_nvm_content = 1`. -/
theorem epdc_init_s1d13541_witness :
    (epdc_init env_ok epdc_s1d13541 1 world_start).1 ≠ some 0 ∧
    (controller_full.update_temp = true →
      (epdc_init env_ok epdc_s1d13541 1 world_start).1 = some (-1)) ∧
    (∀ s ∈ steps (epdc_init env_ok epdc_s1d13541 1) world_start, is_file_io s = false) ∧
    (epdc_init env_ok epdc_s1d13541 1 world_start).2.files = world_start.files :=
  epdc_init_s1d13541 env_ok epdc_s1d13541 1 world_start controller_full hv_full
    ⟨pl_nvm_format.NVM_FORMAT_S1D13541, 4000⟩ rfl rfl rfl rfl (by decide)

/-! ## Rules to follow a run step by step

Each rule reduces a postcondition of a run that starts with one kind of
step to a postcondition of the rest of the run.  The status that a call
returns is named and kept with the equation that defines it. -/

theorem wp_pure {α : Type} (a : α) (w : World) (Q : Option α → World → Prop)
    (h : Q (some a) w) : wp (pure a : Prog α) w Q := h

theorem wp_abort {α : Type} (w : World) (Q : Option α → World → Prop)
    (h : Q none w) : wp (abort : Prog α) w Q := h

theorem wp_assert_failed (env : Env) (w : World) (Q : Option Int → World → Prop)
    (h : Q (env.assert_status.map (fun k => k.1)) w) : wp (assert_failed env) w Q := h

theorem wp_ite {α : Type} (c : Prop) [Decidable c] (m1 m2 : Prog α) (w : World)
    (Q : Option α → World → Prop) (h1 : c → wp m1 w Q) (h2 : ¬ c → wp m2 w Q) :
    wp (if c then m1 else m2) w Q := by
  split_ifs with h
  · exact h1 h
  · exact h2 h

theorem wp_invoke (env : Env) (c : Call) (t : List Step) (fs ss : List (String × List Nat))
    (Q : Option Int → World → Prop)
    (h : ∀ s, env.status t c = s → Q (some s) ⟨t ++ [Step.call c s], fs, ss⟩) :
    wp (invoke env c) ⟨t, fs, ss⟩ Q := h _ rfl

theorem wp_bind_bind {α β γ : Type} (m : Prog α) (f : α → Prog β) (g : β → Prog γ) (w : World)
    (Q : Option γ → World → Prop) (h : wp (m >>= fun a => f a >>= g) w Q) :
    wp ((m >>= f) >>= g) w Q := by
  unfold wp at *
  simp only [bind, Prog.bind] at *
  rcases hm : m w with ⟨r, w1⟩
  rw [hm] at h
  cases r <;> simpa using h

theorem wp_bind_pure {α β : Type} (a : α) (f : α → Prog β) (w : World)
    (Q : Option β → World → Prop) (h : wp (f a) w Q) : wp ((pure a : Prog α) >>= f) w Q := h

theorem wp_bind_abort {α β : Type} (f : α → Prog β) (w : World)
    (Q : Option β → World → Prop) (h : Q none w) : wp ((abort : Prog α) >>= f) w Q := h

/-- A function whose assertion failed hands the status of the assertion
to its caller, or the run is ended. -/
theorem wp_bind_assert_failed {β : Type} (env : Env) (f : Int → Prog β) (w : World)
    (Q : Option β → World → Prop)
    (h1 : env.assert_status = none → Q none w)
    (h2 : ∀ k : { k : Int // k ≠ 0 }, env.assert_status = some k → wp (f k.1) w Q) :
    wp (assert_failed env >>= f) w Q := by
  unfold wp at *
  simp only [bind, Prog.bind, assert_failed]
  cases hk : env.assert_status with
  | none => exact h1 hk
  | some k => exact h2 k hk

theorem wp_bind_ite {α β : Type} (c : Prop) [Decidable c] (m1 m2 : Prog α) (f : α → Prog β)
    (w : World) (Q : Option β → World → Prop)
    (h1 : c → wp (m1 >>= f) w Q) (h2 : ¬ c → wp (m2 >>= f) w Q) :
    wp ((if c then m1 else m2) >>= f) w Q := by
  split_ifs with h
  · exact h1 h
  · exact h2 h

theorem wp_bind_invoke {β : Type} (env : Env) (c : Call) (f : Int → Prog β) (t : List Step)
    (fs ss : List (String × List Nat)) (Q : Option β → World → Prop)
    (h : ∀ s, env.status t c = s → wp (f s) ⟨t ++ [Step.call c s], fs, ss⟩ Q) :
    wp (invoke env c >>= f) ⟨t, fs, ss⟩ Q := h _ rfl

/-- A call whose status is known can be followed with that status. -/
theorem wp_bind_invoke_eq {β : Type} {env : Env} {c : Call} {f : Int → Prog β} {t : List Step}
    {fs ss : List (String × List Nat)} {Q : Option β → World → Prop} {v : Int}
    (h0 : env.status t c = v) (h : wp (f v) ⟨t ++ [Step.call c v], fs, ss⟩ Q) :
    wp (invoke env c >>= f) ⟨t, fs, ss⟩ Q := by
  subst h0
  exact h

theorem wp_bind_invoke_void {β : Type} (c : Call) (f : Unit → Prog β) (t : List Step)
    (fs ss : List (String × List Nat)) (Q : Option β → World → Prop)
    (h : wp (f ()) ⟨t ++ [Step.void c], fs, ss⟩ Q) :
    wp (invoke_void c >>= f) ⟨t, fs, ss⟩ Q := h

theorem wp_bind_get_trace {β : Type} (f : List Step → Prog β) (t : List Step)
    (fs ss : List (String × List Nat)) (Q : Option β → World → Prop)
    (h : wp (f t) ⟨t, fs, ss⟩ Q) :
    wp (get_trace >>= f) ⟨t, fs, ss⟩ Q := h

theorem wp_bind_deref {β : Type} (b : Bool) (f : Unit → Prog β) (w : World)
    (Q : Option β → World → Prop)
    (h1 : b = true → wp (f ()) w Q) (h2 : b = false → Q none w) :
    wp (deref b >>= f) w Q := by
  cases b
  · exact h2 rfl
  · exact h1 rfl

theorem wp_bind_fopen {β : Type} (env : Env) (filename mode : String) (f : Bool → Prog β)
    (t : List Step) (fs ss : List (String × List Nat)) (Q : Option β → World → Prop)
    (h : ∀ s, env.status t (Call.fopen filename mode) = s → wp (f (decide (s ≠ 0)))
      ⟨t ++ [Step.call (Call.fopen filename mode) s],
        if s ≠ 0 ∧ (mode = "w" ∨ mode = "wb") then (filename, []) :: fs else fs,
        if s ≠ 0 then (filename, []) :: ss else ss⟩ Q) :
    wp (fopen env filename mode >>= f) ⟨t, fs, ss⟩ Q := h _ rfl

theorem wp_bind_fwrite {β : Type} (env : Env) (filename : String) (buffer : List Nat)
    (nmemb : Int) (f : Int → Prog β) (t : List Step) (fs ss : List (String × List Nat))
    (Q : Option β → World → Prop)
    (h : ∀ n, env.status t (Call.fwrite filename nmemb) = n → wp (f n)
      ⟨t ++ [Step.call (Call.fwrite filename nmemb) n], fs,
        (filename, (ss.lookup filename).getD [] ++ buffer.take n.toNat) :: ss⟩ Q) :
    wp (fwrite env filename buffer nmemb >>= f) ⟨t, fs, ss⟩ Q := h _ rfl

theorem wp_bind_fclose {β : Type} (env : Env) (filename : String) (f : Unit → Prog β)
    (t : List Step) (fs ss : List (String × List Nat)) (Q : Option β → World → Prop)
    (h : ∀ s, env.status t (Call.fclose filename) = s →
      wp (f ()) ⟨t ++ [Step.call (Call.fclose filename) s],
        match ss.lookup filename with
        | some (b :: bs) =>
          (filename, (fs.lookup filename).getD [] ++ flush env t s (b :: bs)) :: fs
        | _ => fs,
        ss.filter (fun e => e.1 != filename)⟩ Q) :
    wp (fclose env filename >>= f) ⟨t, fs, ss⟩ Q := h _ rfl

/-! ## C7: `init` from an NVM of format PLAIN -/

/-- C7, as stated, fails: with a blob of ten bytes and an `fwrite` that
reports ten bytes written, `epdc_init` returns 0, but `fclose` fails after
four bytes have reached the file, and the file `/tmp/dummy.plain.bin`
holds these four bytes only. -/
theorem epdc_init_plain_truncated_file :
    (epdc_init env_fclose_fails epdc_full 1 world_start).1 = some 0 ∧
    Step.call (Call.fwrite "/tmp/dummy.plain.bin" 10) 10
      ∈ steps (epdc_init env_fclose_fails epdc_full 1) world_start ∧
    (epdc_init env_fclose_fails epdc_full 1 world_start).2.file "/tmp/dummy.plain.bin"
      = some [1, 2, 3, 4] ∧
    (epdc_init env_fclose_fails epdc_full 1 world_start).2.file "/tmp/dummy.plain.bin"
      ≠ some [1, 2, 3, 4, 5, 6, 7, 8, 9, 10] := by
  decide

set_option maxHeartbeats 1000000 in
/-- C7, amended: when controller init and HV init succeed, the VCOM
configuration is present and an NVM of format PLAIN returns a blob of
`n > 0` bytes, `epdc_init` with `load_nvm_content` set returns 0 if and
only if the `fwrite` to `/tmp/dummy.plain.bin` reports `n` bytes written;
in that case the file `/tmp/dummy.plain.bin` contains exactly the blob
when `fclose` returned 0 as well, a status that the code does not read. -/
theorem epdc_init_plain_persists_blob (env : Env) (p : pl_generic_epdc) (load_nvm_content : Int)
    (w : World) (c : pl_generic_controller) (hv : pl_hv) (vc : pl_vcom_config) (nvm : pl_nvm)
    (blob : List Nat)
    (hc : p.controller = some c) (hu : c.update_temp = true) (hh : p.hv = some hv)
    (hvc : hv.vcomConfig = some vc) (hn : p.nvm = some nvm)
    (hf : nvm.nvm_format = pl_nvm_format.NVM_FORMAT_PLAIN) (hl : load_nvm_content ≠ 0)
    (hci : ∀ t, env.status t (Call.init load_nvm_content) = 0)
    (hhi : ∀ t, env.status t Call.hv_init = 0)
    (hd : ∀ t, env.wfdata t = (blob, (blob.length : Int))) (hb : 0 < blob.length) :
    ((epdc_init env p load_nvm_content w).1 = some 0 ↔
      Step.call (Call.fwrite "/tmp/dummy.plain.bin" blob.length) blob.length
        ∈ steps (epdc_init env p load_nvm_content) w) ∧
    ((epdc_init env p load_nvm_content w).1 = some 0 →
      Step.call (Call.fclose "/tmp/dummy.plain.bin") 0
        ∈ steps (epdc_init env p load_nvm_content) w →
      (epdc_init env p load_nvm_content w).2.file "/tmp/dummy.plain.bin" = some blob) := by
  have hb2 : ¬ ((blob.length : Int) ≤ 0) := by omega
  obtain ⟨b, bs, rfl⟩ : ∃ b bs, blob = b :: bs := by
    cases blob with
    | nil => simp at hb
    | cons b bs => exact ⟨b, bs, rfl⟩
  show wp (epdc_init env p load_nvm_content) w (fun r w1 =>
    (r = some 0 ↔
      Step.call (Call.fwrite "/tmp/dummy.plain.bin" (b :: bs).length) (b :: bs).length
        ∈ w1.trace.drop w.trace.length) ∧
    (r = some 0 →
      Step.call (Call.fclose "/tmp/dummy.plain.bin") 0 ∈ w1.trace.drop w.trace.length →
      w1.file "/tmp/dummy.plain.bin" = some (b :: bs)))
  obtain ⟨t0, f0, s0⟩ := w
  obtain ⟨phv, pnvm, pc, pdv⟩ := p
  cases hc
  cases hh
  cases hn
  unfold epdc_init
  cases hi : c.init <;> cases hhi2 : hv.init
  all_goals simp only [hi, hhi2, hu, hvc, hf, hl, hd, hb2, if_true, if_false,
    Bool.false_eq_true, bor_zero_left, ne_eq, not_false_eq_true, not_true_eq_false,
    Option.isNone_some]
  all_goals
    repeat' (first
      | with_reducible apply wp_bind_bind
      | with_reducible apply wp_bind_invoke_eq (hci _)
      | with_reducible apply wp_bind_invoke_eq (hhi _)
      | (with_reducible apply wp_bind_invoke; intro _ _)
      | with_reducible apply wp_bind_invoke_void
      | with_reducible apply wp_bind_get_trace
      | (with_reducible apply wp_bind_deref <;> intro _)
      | (with_reducible apply wp_bind_fopen; intro _ _)
      | (with_reducible apply wp_bind_fwrite; intro _ _)
      | (with_reducible apply wp_bind_fclose; intro _ _)
      | (with_reducible apply wp_bind_ite <;> intro _)
      | with_reducible apply wp_bind_pure
      | with_reducible apply wp_bind_abort
      | (with_reducible apply wp_ite <;> intro _)
      | (with_reducible apply wp_invoke; intro _ _)
      | with_reducible apply wp_pure
      | with_reducible apply wp_abort)
  all_goals try contradiction
  all_goals simp only [List.append_assoc, List.singleton_append, List.cons_append,
    List.nil_append, List.drop_left]
  all_goals first
    | (simp_all [World.file, flush, eq_comm (a := (0 : Int))]; done)
    | (simp_all [World.file, flush, eq_comm (a := (0 : Int))]; omega)

/-- Witness of C7, amended, with the blob of ten bytes of `env_ok`, whose
`fwrite` and `fclose` succeed: `epdc_init` returns 0 and the file holds
the ten bytes. -/
theorem epdc_init_plain_persists_blob_witness :
    (epdc_init env_ok epdc_full 1 world_start).1 = some 0 ∧
    (epdc_init env_ok epdc_full 1 world_start).2.file "/tmp/dummy.plain.bin"
      = some [1, 2, 3, 4, 5, 6, 7, 8, 9, 10] :=
  have h := epdc_init_plain_persists_blob env_ok epdc_full 1 world_start controller_full
    hv_full ⟨0⟩ ⟨pl_nvm_format.NVM_FORMAT_PLAIN, 4000⟩ [1, 2, 3, 4, 5, 6, 7, 8, 9, 10]
    rfl rfl rfl rfl rfl rfl (by decide) (fun _ => rfl) (fun _ => rfl) (fun _ => rfl) (by decide)
  ⟨h.1.mpr (by decide), h.2 (h.1.mpr (by decide)) (by decide)⟩

/-! ## C8: `clear_init` on a controller without `clear_update` -/

/-- C8: when the controller has no `clear_update` capability, whatever
its temperature mode and whatever the HV subsystem (even absent),
`do_clear_update` returns 0 and calls nothing: no HV switching, no fill,
no temperature resample, no wait; the world is unchanged. -/
theorem do_clear_update_unsupported (env : Env) (p : pl_generic_epdc)
    (c : pl_generic_controller) (w : World)
    (hc : p.controller = some c) (hcl : c.clear_update = false) :
    (do_clear_update env p w).1 = some 0 ∧
    steps (do_clear_update env p) w = [] ∧
    (do_clear_update env p w).2 = w := by
  simp [do_clear_update, steps, hc, hcl, bind, Prog.bind, pure]

/-- Witness of C8 on the orchestrator `epdc_without_clear`. -/
theorem do_clear_update_unsupported_witness :
    (do_clear_update env_ok epdc_without_clear world_start).1 = some 0 ∧
    steps (do_clear_update env_ok epdc_without_clear) world_start = [] ∧
    (do_clear_update env_ok epdc_without_clear world_start).2 = world_start :=
  do_clear_update_unsupported env_ok epdc_without_clear controller_without_clear world_start
    rfl rfl

/-! ## C9: `init` from the default paths without a VCOM configuration -/

/-- C9: on an orchestrator whose controller init, HV init and
`load_wflib` succeed and whose HV subsystem has no VCOM-configuration
capability, with a failed assertion surfaced as a nonzero status return
(section 7 of the spec), `epdc_init` with `load_nvm_content = 0` first
loads the waveform library from the controller's default path with
status 0, as its last call, and then returns the nonzero status -1 from
the VCOM-apply step, where `set_vcom` returns the status of its assertion
(line 225) and no VCOM capability is called. -/
theorem epdc_init_default_paths_fails_at_set_vcom (env : Env) (p : pl_generic_epdc) (w : World)
    (c : pl_generic_controller) (hv : pl_hv) (k : { k : Int // k ≠ 0 })
    (hc : p.controller = some c) (hu : c.update_temp = true) (hh : p.hv = some hv)
    (hvc : hv.vcomConfig = none)
    (hci : ∀ t, env.status t (Call.init 0) = 0)
    (hhi : ∀ t, env.status t Call.hv_init = 0)
    (hwf : ∀ t, env.status t (Call.load_wflib c.waveform_file_path) = 0)
    (hk : env.assert_status = some k) :
    (steps (epdc_init env p 0) w).getLast?
      = some (Step.call (Call.load_wflib c.waveform_file_path) 0) ∧
    (epdc_init env p 0 w).1 = some (-1) ∧
    (∃ r : Int, r ≠ 0 ∧ (epdc_init env p 0 w).1 = some r) ∧
    (∀ v s, Step.call (Call.vcomConfig_set_vcom v) s ∉ steps (epdc_init env p 0) w) := by
  have hk0 : k.1 ≠ 0 := k.2
  have hr : (epdc_init env p 0 w).1 = some (-1) := by
    unfold epdc_init set_vcom
    cases hi : c.init <;> cases hhi2 : hv.init <;>
      simp [hc, hh, hi, hu, hhi2, hvc, hci, hhi, hwf, hk, hk0, bind, Prog.bind, pure,
        invoke, deref, abort, assert_failed, bor_zero_left]
  refine ⟨?_, hr, ⟨-1, by decide, hr⟩, ?_⟩
  · unfold epdc_init steps set_vcom
    cases hi : c.init <;> cases hhi2 : hv.init <;>
      simp [hc, hh, hi, hu, hhi2, hvc, hci, hhi, hwf, hk, hk0, bind, Prog.bind, pure,
        invoke, deref, abort, assert_failed, bor_zero_left, List.getLast?_append]
  · unfold epdc_init steps set_vcom
    cases hi : c.init <;> cases hhi2 : hv.init <;>
      simp [hc, hh, hi, hu, hhi2, hvc, hci, hhi, hwf, hk, hk0, bind, Prog.bind, pure,
        invoke, deref, abort, assert_failed, bor_zero_left]

/-- Witness of C9, with the default VCOM 1500 and a failed assertion that
returns the status -1. -/
theorem epdc_init_default_paths_fails_at_set_vcom_witness :
    (steps (epdc_init env_ok epdc_without_vcom_config 0) world_start).getLast?
      = some (Step.call (Call.load_wflib controller_full.waveform_file_path) 0) ∧
    (epdc_init env_ok epdc_without_vcom_config 0 world_start).1 = some (-1) ∧
    (∃ r : Int, r ≠ 0 ∧ (epdc_init env_ok epdc_without_vcom_config 0 world_start).1 = some r) ∧
    (∀ v s, Step.call (Call.vcomConfig_set_vcom v) s
      ∉ steps (epdc_init env_ok epdc_without_vcom_config 0) world_start) :=
  epdc_init_default_paths_fails_at_set_vcom env_ok epdc_without_vcom_config world_start
    controller_full hv_without_vcom_config ⟨-1, by decide⟩ rfl rfl rfl rfl
    (fun _ => rfl) (fun _ => rfl) (fun _ => rfl) rfl

/-! ## C10: the clear sequence -/

/-- C10, as stated, fails: when `fill` returns 1, `do_clear_update`
stops right after it. The HV-on sequence, `clear_update`,
`wait_update_end` and the HV-off sequence are not invoked, and the value
returned is -1, not the bitwise or 1 of the statuses returned. -/
theorem do_clear_update_stops_when_fill_fails :
    ¬ clear_sequence (steps (do_clear_update env_fill_fails epdc_full) world_start) ∧
    (do_clear_update env_fill_fails epdc_full world_start).1 = some (-1) ∧
    or_all (statuses (steps (do_clear_update env_fill_fails epdc_full) world_start)) = 1 := by
  have h : steps (do_clear_update env_fill_fails epdc_full) world_start
      = [Step.call Call.update_temp 0, Step.call (Call.fill none 0xFF) 1] := by decide
  refine ⟨?_, by decide, by rw [h]; decide⟩
  rintro ⟨pre, sf, hon, sc, sw, hoff, hd, _⟩
  have hmem : Step.hvs_on ∈ steps (do_clear_update env_fill_fails epdc_full) world_start := by
    rw [hd]
    simp
  rw [h] at hmem
  simp at hmem

/-- C10, amended: when the controller has the `clear_update` capability
(and the HV subsystem is present), for every combination of step
results, either `fill(full panel, 0xFF)` returns a nonzero status and
`do_clear_update` stops there and returns -1, having called before it at
most the temperature resample; or `fill` returns 0 and `do_clear_update`
invokes `fill`, the HV-on sequence, `clear_update`, `wait_update_end`
and the HV-off sequence in that order, whatever the other steps return,
and returns the bitwise or of the statuses of all the calls it made, the
temperature resample included (zero only if every one returned zero). -/
theorem do_clear_update_sequence (env : Env) (p : pl_generic_epdc) (w : World)
    (c : pl_generic_controller) (hv : pl_hv)
    (hc : p.controller = some c) (hcl : c.clear_update = true) (hh : p.hv = some hv) :
    (∃ pre sf, sf ≠ 0 ∧
        steps (do_clear_update env p) w = pre ++ [Step.call (Call.fill none 0xFF) sf] ∧
        (∀ s ∈ pre, ∃ st, s = Step.call Call.update_temp st) ∧
        (do_clear_update env p w).1 = some (-1)) ∨
    (clear_sequence (steps (do_clear_update env p) w) ∧
      Step.call (Call.fill none 0xFF) 0 ∈ steps (do_clear_update env p) w ∧
      (do_clear_update env p w).1
        = some (or_all (statuses (steps (do_clear_update env p) w)))) := by
  unfold do_clear_update steps clear_sequence
  by_cases ht : c.temp_mode = pl_epdc_temp_mode.PL_EPDC_TEMP_MANUAL <;>
  cases hu : c.update_temp <;>
  simp only [hc, hh, hcl, ht, hu, bind, Prog.bind, pure, invoke, switch_hvs_on_eq,
    switch_hvs_off_eq, ne_eq, not_false_eq_true, not_true_eq_false,
    if_true, if_false, Bool.false_eq_true, Bool.not_true, Bool.not_false] <;>
  split_ifs with hf <;>
  simp only [hc, hh, bind, Prog.bind, pure, invoke, switch_hvs_on_eq, switch_hvs_off_eq,
    List.append_assoc, List.singleton_append, List.cons_append, List.drop_left,
    List.nil_append]
  all_goals first
    | exact Or.inl ⟨[], _, hf, rfl, by simp, by trivial⟩
    | exact Or.inl ⟨[_], _, hf, rfl, by simp, by trivial⟩
    | exact Or.inr ⟨⟨[], _, _, _, _, _, rfl, by simp, hvs_on_sub_substep _ _ _,
        hvs_off_sub_substep _ _ _⟩, by simp [hf],
        by simp [statuses_append, statuses_call, statuses_hvs_on, statuses_hvs_off,
          statuses_nil, or_all_append, or_all_cons, or_all_nil, hvs_on_stat_eq,
          hvs_off_stat_eq, bor_zero_left, bor_zero_right, bor_assoc, hf]⟩
    | exact Or.inr ⟨⟨[_], _, _, _, _, _, rfl, by simp, hvs_on_sub_substep _ _ _,
        hvs_off_sub_substep _ _ _⟩, by simp [hf],
        by simp [statuses_append, statuses_call, statuses_hvs_on, statuses_hvs_off,
          statuses_nil, or_all_append, or_all_cons, or_all_nil, hvs_on_stat_eq,
          hvs_off_stat_eq, bor_zero_left, bor_zero_right, bor_assoc, hf]⟩

/-- Witness of C10, amended, on the orchestrator `epdc_full`. -/
theorem do_clear_update_sequence_witness :
    (∃ pre sf, sf ≠ 0 ∧
        steps (do_clear_update env_ok epdc_full) world_start
          = pre ++ [Step.call (Call.fill none 0xFF) sf] ∧
        (∀ s ∈ pre, ∃ st, s = Step.call Call.update_temp st) ∧
        (do_clear_update env_ok epdc_full world_start).1 = some (-1)) ∨
    (clear_sequence (steps (do_clear_update env_ok epdc_full) world_start) ∧
      Step.call (Call.fill none 0xFF) 0 ∈ steps (do_clear_update env_ok epdc_full) world_start ∧
      (do_clear_update env_ok epdc_full world_start).1
        = some (or_all (statuses (steps (do_clear_update env_ok epdc_full) world_start)))) :=
  do_clear_update_sequence env_ok epdc_full world_start controller_full hv_full rfl rfl rfl

/-! ## C11: the guards of the NVM path of `init` -/

/-- C11: when controller init and HV init succeed, `epdc_init` with
`load_nvm_content` set returns the failure status -1 when the NVM
subsystem is absent or the HV subsystem has no VCOM-configuration
capability, having called only controller init, `update_temp` and HV
init, so not `read_wfdata`; and it returns -1 when `read_wfdata` reports
a byte count of at most 0, having called nothing after `read_wfdata`: no
file is written, no `set_vcom` and no `load_wflib` is called. -/
theorem epdc_init_nvm_guards (env : Env) (p : pl_generic_epdc) (load_nvm_content : Int)
    (w : World) (c : pl_generic_controller) (hv : pl_hv)
    (hc : p.controller = some c) (hu : c.update_temp = true) (hh : p.hv = some hv)
    (hl : load_nvm_content ≠ 0)
    (hci : ∀ t, env.status t (Call.init load_nvm_content) = 0)
    (hhi : ∀ t, env.status t Call.hv_init = 0) :
    (p.nvm = none ∨ hv.vcomConfig = none →
      (epdc_init env p load_nvm_content w).1 = some (-1) ∧
      calls (steps (epdc_init env p load_nvm_content) w)
        = (if c.init then [Call.init load_nvm_content] else []) ++ [Call.update_temp]
            ++ (if hv.init then [Call.hv_init] else [])) ∧
    (p.nvm ≠ none → hv.vcomConfig ≠ none → (∀ t, (env.wfdata t).2 ≤ 0) →
      (epdc_init env p load_nvm_content w).1 = some (-1) ∧
      calls (steps (epdc_init env p load_nvm_content) w)
        = (if c.init then [Call.init load_nvm_content] else []) ++ [Call.update_temp]
            ++ (if hv.init then [Call.hv_init] else []) ++ [Call.read_wfdata] ∧
      (epdc_init env p load_nvm_content w).2.files = w.files) := by
  unfold epdc_init steps
  refine ⟨?_, ?_⟩
  · intro h
    cases hi : c.init <;> cases hhi2 : hv.init <;> cases hn : p.nvm <;>
      cases hvc : hv.vcomConfig <;>
      simp_all [bind, Prog.bind, pure, invoke, invoke_void, deref, abort, assert_failed, get_trace,
        bor_zero_left, calls]
  · intro h1 h2 h3
    cases hn : p.nvm with
    | none => exact absurd hn h1
    | some nvm =>
      cases hvc : hv.vcomConfig with
      | none => exact absurd hvc h2
      | some vc =>
        cases hi : c.init <;> cases hhi2 : hv.init <;>
          simp [hc, hh, hu, hl, hci, hhi, hi, hhi2, hn, hvc, h3, bind, Prog.bind, pure, invoke,
            invoke_void, deref, abort, assert_failed, get_trace, bor_zero_left, calls]

/-- Witness of C11: the orchestrator `epdc_without_vcom_config`, which
has neither NVM nor VCOM configuration, and the full orchestrator with
an NVM that reports no data. -/
theorem epdc_init_nvm_guards_witness :
    ((epdc_init env_ok epdc_without_vcom_config 1 world_start).1 = some (-1) ∧
      calls (steps (epdc_init env_ok epdc_without_vcom_config 1) world_start)
        = (if controller_full.init then [Call.init 1] else []) ++ [Call.update_temp]
            ++ (if hv_without_vcom_config.init then [Call.hv_init] else [])) ∧
    ((epdc_init env_empty_nvm epdc_full 1 world_start).1 = some (-1) ∧
      calls (steps (epdc_init env_empty_nvm epdc_full 1) world_start)
        = (if controller_full.init then [Call.init 1] else []) ++ [Call.update_temp]
            ++ (if hv_full.init then [Call.hv_init] else []) ++ [Call.read_wfdata] ∧
      (epdc_init env_empty_nvm epdc_full 1 world_start).2.files = world_start.files) :=
  ⟨(epdc_init_nvm_guards env_ok epdc_without_vcom_config 1 world_start controller_full
      hv_without_vcom_config rfl rfl rfl (by decide) (fun _ => rfl) (fun _ => rfl)).1
      (Or.inl rfl),
   (epdc_init_nvm_guards env_empty_nvm epdc_full 1 world_start controller_full
      hv_full rfl rfl rfl (by decide) (fun _ => rfl) (fun _ => rfl)).2
      (by decide) (by decide) (fun _ => Int.le_refl 0)⟩

/-! ## C12: the order of the steps of a waiting update -/

/-- C12: for every base mode (at most 3, no-wait flag clear), with the
controller and HV subsystem that `generic_update` asserts, whatever the
steps return, `generic_update` invokes in this order: `update_temp`
(exactly when the temperature mode is not manual and the capability
exists), `configure_update(wfID, mode, area)`, the HV-on sequence,
`trigger_update`, `wait_update_end`, the HV-off sequence; and it returns
a status. -/
theorem generic_update_waiting_sequence (env : Env) (p : pl_generic_epdc) (wfID mode : Int)
    (area : Option pl_area) (w : World) (c : pl_generic_controller) (hv : pl_hv)
    (hc : p.controller = some c) (hh : p.hv = some hv) (hm : mode ≤ 3) :
    update_sequence
      (if c.temp_mode ≠ pl_epdc_temp_mode.PL_EPDC_TEMP_MANUAL ∧ c.update_temp = true
        then [Step.call Call.update_temp (env.status w.trace Call.update_temp)] else [])
      wfID mode area (steps (generic_update env p wfID mode area) w) ∧
    (generic_update env p wfID mode area w).1 ≠ none := by
  have hm2 : ¬ (mode > 3) := by omega
  unfold generic_update steps update_sequence
  by_cases ht : c.temp_mode = pl_epdc_temp_mode.PL_EPDC_TEMP_MANUAL <;>
  cases hu : c.update_temp <;>
  simp only [hc, hh, hm2, ht, hu, bind, Prog.bind, pure, invoke, switch_hvs_on_eq,
    switch_hvs_off_eq, ne_eq, not_false_eq_true, not_true_eq_false, and_self, and_false,
    false_and, and_true, true_and,
    if_true, if_false, Bool.false_eq_true, Bool.not_true, Bool.not_false,
    List.append_assoc, List.singleton_append, List.cons_append, List.drop_left,
    List.nil_append] <;>
  exact ⟨⟨_, _, _, _, _, rfl, hvs_on_sub_substep _ _ _, hvs_off_sub_substep _ _ _⟩, by simp⟩

/-- Witness of C12 on the orchestrator `epdc_full` with mode 2. -/
theorem generic_update_waiting_sequence_witness :
    update_sequence
      (if controller_full.temp_mode ≠ pl_epdc_temp_mode.PL_EPDC_TEMP_MANUAL
          ∧ controller_full.update_temp = true
        then [Step.call Call.update_temp (env_ok.status world_start.trace Call.update_temp)]
        else [])
      1 2 none (steps (generic_update env_ok epdc_full 1 2 none) world_start) ∧
    (generic_update env_ok epdc_full 1 2 none world_start).1 ≠ none :=
  generic_update_waiting_sequence env_ok epdc_full 1 2 none world_start controller_full hv_full
    rfl rfl (by decide)


/-! ## Lemmas on the modes handed to the controller -/

theorem configured_modes_append (l1 l2 : List Step) :
    configured_modes (l1 ++ l2) = configured_modes l1 ++ configured_modes l2 := by
  induction l1 with
  | nil => rfl
  | cons s t ih =>
    cases s with
    | call c r => cases c <;> simp [configured_modes, ih]
    | void c => simp [configured_modes, ih]
    | hvs_on => simp [configured_modes, ih]
    | hvs_off => simp [configured_modes, ih]

theorem configured_modes_substeps (l : List Step)
    (h : ∀ s ∈ l, is_on_substep s = true ∨ is_off_substep s = true) :
    configured_modes l = [] := by
  induction l with
  | nil => rfl
  | cons s t ih =>
    have hs := h s (List.mem_cons_self s t)
    have ht := ih (fun x hx => h x (List.mem_cons_of_mem s hx))
    cases s with
    | call c r =>
      cases c <;> simp_all [configured_modes, is_on_substep, is_off_substep]
    | void c => simp_all [configured_modes]
    | hvs_on => simp [is_on_substep, is_off_substep] at hs
    | hvs_off => simp [is_on_substep, is_off_substep] at hs

theorem configured_modes_hvs_on_sub (env : Env) (hv : pl_hv) (t : List Step) :
    configured_modes (hvs_on_sub env hv t) = [] :=
  configured_modes_substeps _ (fun s hs => Or.inl (hvs_on_sub_substep env hv t s hs))

theorem configured_modes_hvs_off_sub (env : Env) (hv : pl_hv) (t : List Step) :
    configured_modes (hvs_off_sub env hv t) = [] :=
  configured_modes_substeps _ (fun s hs => Or.inr (hvs_off_sub_substep env hv t s hs))

theorem generic_update_configured_modes (env : Env) (p : pl_generic_epdc) (wfID mode : Int)
    (area : Option pl_area) (w : World) (c : pl_generic_controller) (hv : pl_hv)
    (hc : p.controller = some c) (hh : p.hv = some hv) :
    configured_modes (steps (generic_update env p wfID mode area) w)
      = [if mode > 3 then mode - 4 else mode] := by
  unfold generic_update steps
  by_cases hm : mode > 3 <;>
  by_cases ht : c.temp_mode = pl_epdc_temp_mode.PL_EPDC_TEMP_MANUAL <;>
  cases hu : c.update_temp <;>
  simp [hc, hh, hm, ht, hu, bind, Prog.bind, pure, invoke, switch_hvs_on_eq, switch_hvs_off_eq,
    configured_modes_append, configured_modes, configured_modes_hvs_on_sub,
    configured_modes_hvs_off_sub]

/-! ## C13: the mode handed to the controller -/

/-- C13, as stated, fails at the two ends: with mode 8 `generic_update`
hands mode 4 to `configure_update`, with mode -1 it hands mode -1. -/
theorem generic_update_hands_over_invalid_mode :
    configured_modes (steps (generic_update env_ok epdc_full 1 8 none) world_start) = [4] ∧
    configured_modes (steps (generic_update env_ok epdc_full 1 (-1) none) world_start) = [-1] := by
  decide

/-- C13, amended: for every update mode from 0 to 7, the mode that
`generic_update` hands to `configure_update` is a valid base mode, at
least 0 and below the no-wait threshold 4: it is the mode itself when
that is at most 3 and the mode minus 4 otherwise, handed over once. -/
theorem generic_update_hands_over_base_mode (env : Env) (p : pl_generic_epdc) (wfID mode : Int)
    (area : Option pl_area) (w : World) (c : pl_generic_controller) (hv : pl_hv)
    (hc : p.controller = some c) (hh : p.hv = some hv) (h0 : 0 ≤ mode) (h7 : mode ≤ 7) :
    configured_modes (steps (generic_update env p wfID mode area) w)
      = [if mode > 3 then mode - 4 else mode] ∧
    ∀ m ∈ configured_modes (steps (generic_update env p wfID mode area) w), 0 ≤ m ∧ m < 4 := by
  rw [generic_update_configured_modes env p wfID mode area w c hv hc hh]
  refine ⟨rfl, ?_⟩
  intro m hmem
  simp only [List.mem_singleton] at hmem
  subst hmem
  split_ifs <;> omega

/-- Witness of C13, amended, at mode 6, which is handed over as mode 2. -/
theorem generic_update_hands_over_base_mode_witness :
    configured_modes (steps (generic_update env_ok epdc_full 1 6 none) world_start)
      = [if (6 : Int) > 3 then 6 - 4 else 6] ∧
    ∀ m ∈ configured_modes (steps (generic_update env_ok epdc_full 1 6 none) world_start),
      0 ≤ m ∧ m < 4 :=
  generic_update_hands_over_base_mode env_ok epdc_full 1 6 none world_start controller_full
    hv_full rfl rfl (by decide) (by decide)

/-! ## C16: the values that `init` returns -/

set_option maxHeartbeats 1000000 in
/-- C16: for every orchestrator, every `load_nvm_content`, every
collaborator behaviour and every world, a value that `epdc_init` returns
is 0 or -1, unless it is the status of its own failed assertion on the
controller or on the HV subsystem (lines 86 and 96): the accumulated
status is 0 whenever the final return is reached, so no nonzero status
of a collaborator is passed on as it is.  And `epdc_init` does return 0
or -1 when no assertion fails and no `NULL` pointer is used: the
controller is present and has `update_temp`, the HV subsystem is present,
it has the VCOM configuration when the default paths are taken
(`load_nvm_content = 0`), and for an NVM of format S040 `fopen` on
`/tmp/dummy.nvm` returns a stream. -/
theorem epdc_init_returns_zero_or_minus_one (env : Env) (p : pl_generic_epdc)
    (load_nvm_content : Int) (w : World) :
    ((epdc_init env p load_nvm_content w).1 = none ∨
      (epdc_init env p load_nvm_content w).1 = some 0 ∨
      (epdc_init env p load_nvm_content w).1 = some (-1) ∨
      ((p.controller = none ∨ p.hv = none) ∧
        (epdc_init env p load_nvm_content w).1 = env.assert_status.map (fun k => k.1))) ∧
    (∀ c hv, p.controller = some c → c.update_temp = true → p.hv = some hv →
      (load_nvm_content = 0 → hv.vcomConfig ≠ none) →
      (∀ nvm, p.nvm = some nvm → nvm.nvm_format = pl_nvm_format.NVM_FORMAT_S040 →
        ∀ t, env.status t (Call.fopen "/tmp/dummy.nvm" "w") ≠ 0) →
      (epdc_init env p load_nvm_content w).1 = some 0 ∨
      (epdc_init env p load_nvm_content w).1 = some (-1)) := by
  show wp (epdc_init env p load_nvm_content) w
    (fun r _ => (r = none ∨ r = some 0 ∨ r = some (-1) ∨
        ((p.controller = none ∨ p.hv = none) ∧ r = env.assert_status.map (fun k => k.1))) ∧
      (∀ c hv, p.controller = some c → c.update_temp = true → p.hv = some hv →
        (load_nvm_content = 0 → hv.vcomConfig ≠ none) →
        (∀ nvm, p.nvm = some nvm → nvm.nvm_format = pl_nvm_format.NVM_FORMAT_S040 →
          ∀ t, env.status t (Call.fopen "/tmp/dummy.nvm" "w") ≠ 0) →
        r = some 0 ∨ r = some (-1)))
  obtain ⟨t0, f0, s0⟩ := w
  unfold epdc_init set_vcom unpack_nvm_content read_vcom_from_file
  cases hc : p.controller with
  | none =>
    exact ⟨Or.inr (Or.inr (Or.inr ⟨Or.inl rfl, rfl⟩)), fun c hv h => by cases h⟩
  | some c =>
  cases hh : p.hv <;> cases hn : p.nvm <;>
    (try (rename_i nvm; cases hf : nvm.nvm_format <;> simp only [hf]))
  all_goals try simp only []
  all_goals
    repeat' (first
      | with_reducible apply wp_bind_bind
      | (with_reducible apply wp_bind_invoke; intro _ _)
      | with_reducible apply wp_bind_invoke_void
      | with_reducible apply wp_bind_get_trace
      | (with_reducible apply wp_bind_deref <;> intro _)
      | (with_reducible apply wp_bind_assert_failed <;> intros)
      | (with_reducible apply wp_bind_fopen; intro _ _)
      | (with_reducible apply wp_bind_fwrite; intro _ _)
      | (with_reducible apply wp_bind_fclose; intro _ _)
      | (with_reducible apply wp_bind_ite <;> intro _)
      | with_reducible apply wp_bind_pure
      | with_reducible apply wp_bind_abort
      | (with_reducible apply wp_ite <;> intro _)
      | (with_reducible apply wp_invoke; intro _ _)
      | with_reducible apply wp_pure
      | with_reducible apply wp_abort
      | with_reducible apply wp_assert_failed)
  all_goals first
    | exact ⟨Or.inr (Or.inr (Or.inl rfl)), fun _ _ _ _ _ _ _ => Or.inr rfl⟩
    | exact ⟨Or.inr (Or.inl rfl), fun _ _ _ _ _ _ _ => Or.inl rfl⟩
    | (have h0 : ∀ {a : Int}, a = 0 → (some a = some 0 ∨ some a = some (-1)) :=
        fun h => Or.inl (congrArg some h)
       simp only [ne_eq, not_not] at *
       exact ⟨Or.inr (Or.inl (congrArg some (by assumption))),
         fun _ _ _ _ _ _ _ => h0 (by assumption)⟩)
    | (refine ⟨Or.inr (Or.inr (Or.inr ⟨?_, rfl⟩)), fun c hv _ _ h => ?_⟩ <;> simp_all; done)
    | (refine ⟨Or.inl rfl, ?_⟩
       intro c1 hv1 h1 h2 h3 h4 h5
       simp_all)

/-- Witness of C16: the full orchestrator with collaborators that all
succeed. -/
theorem epdc_init_returns_zero_or_minus_one_witness :
    (epdc_init env_ok epdc_full 1 world_start).1 = some 0 ∨
    (epdc_init env_ok epdc_full 1 world_start).1 = some (-1) :=
  (epdc_init_returns_zero_or_minus_one env_ok epdc_full 1 world_start).2 controller_full hv_full
    rfl rfl rfl (fun _ => by decide) (fun _ _ _ _ => by simp [env_ok])

/-! ## C14: the temperature sample that `init` forces -/

set_option maxHeartbeats 4000000 in
/-- C14: for every `load_nvm_content`, every temperature mode and every
collaborator behaviour, on a controller that has `update_temp`: when
controller init is absent or returns 0, the run of `epdc_init` consists
of the controller init call (if present), then one call of
`update_temp`, then the rest of the run, which does not start with a
second `update_temp` and which starts with HV init when the HV subsystem
has an init capability; every `load_wflib` call of the run is therefore
in that rest, after the forced `update_temp`.  When controller init
returns a nonzero status, `epdc_init` returns -1 and the controller init
call is the only step of the run: neither `update_temp` nor HV init is
called. -/
theorem epdc_init_forced_temperature_sample (env : Env) (p : pl_generic_epdc)
    (load_nvm_content : Int) (w : World) (c : pl_generic_controller)
    (hc : p.controller = some c) (hu : c.update_temp = true) :
    (c.init = false ∨ env.status w.trace (Call.init load_nvm_content) = 0 →
      ∃ st rest,
        steps (epdc_init env p load_nvm_content) w
          = (if c.init then [Step.call (Call.init load_nvm_content) 0] else [])
              ++ Step.call Call.update_temp st :: rest ∧
        (∀ s, rest.head? ≠ some (Step.call Call.update_temp s)) ∧
        (∀ hv, p.hv = some hv → hv.init = true →
          ∃ sh, rest.head? = some (Step.call Call.hv_init sh))) ∧
    (c.init = true → env.status w.trace (Call.init load_nvm_content) ≠ 0 →
      (epdc_init env p load_nvm_content w).1 = some (-1) ∧
      steps (epdc_init env p load_nvm_content) w
        = [Step.call (Call.init load_nvm_content)
            (env.status w.trace (Call.init load_nvm_content))]) := by
  refine ⟨fun hA => ?_, fun hB1 hB2 => ?_⟩
  · have hA2 : c.init = true → env.status w.trace (Call.init load_nvm_content) = 0 := by
      intro h
      rcases hA with h1 | h1
      · rw [h] at h1; cases h1
      · exact h1
    clear hA
    show wp (epdc_init env p load_nvm_content) w (fun _ w1 =>
      ∃ st rest,
        w1.trace.drop w.trace.length
          = (if c.init then [Step.call (Call.init load_nvm_content) 0] else [])
              ++ Step.call Call.update_temp st :: rest ∧
        (∀ s, rest.head? ≠ some (Step.call Call.update_temp s)) ∧
        (∀ hv, p.hv = some hv → hv.init = true →
          ∃ sh, rest.head? = some (Step.call Call.hv_init sh)))
    obtain ⟨t0, f0, s0⟩ := w
    obtain ⟨phv, pnvm, pc, pdv⟩ := p
    cases hc
    unfold epdc_init set_vcom unpack_nvm_content read_vcom_from_file
    cases hi : c.init
    all_goals simp only [hi, hu, if_true, if_false, Bool.false_eq_true, bor_zero_left,
      forall_const] at hA2 ⊢
    all_goals cases hh : phv <;> cases hn : pnvm <;>
      (try (rename_i nvm; cases hf : nvm.nvm_format <;> simp only [hf]))
    all_goals try simp only []
    all_goals
      repeat' (first
        | with_reducible apply wp_bind_bind
        | with_reducible apply wp_bind_invoke_eq hA2
        | (with_reducible apply wp_bind_invoke; intro _ _)
        | with_reducible apply wp_bind_invoke_void
        | with_reducible apply wp_bind_get_trace
        | (with_reducible apply wp_bind_deref <;> intro _)
        | (with_reducible apply wp_bind_assert_failed <;> intros)
        | (with_reducible apply wp_bind_fopen; intro _ _)
        | (with_reducible apply wp_bind_fwrite; intro _ _)
        | (with_reducible apply wp_bind_fclose; intro _ _)
        | (with_reducible apply wp_bind_ite <;> intro _)
        | with_reducible apply wp_bind_pure
        | with_reducible apply wp_bind_abort
        | (with_reducible apply wp_ite <;> intro _)
        | (with_reducible apply wp_invoke; intro _ _)
        | with_reducible apply wp_pure
        | with_reducible apply wp_abort
        | with_reducible apply wp_assert_failed)
    all_goals try contradiction
    all_goals simp only [List.append_assoc, List.singleton_append, List.cons_append,
      List.nil_append, List.drop_left]
    all_goals (
      refine ⟨_, _, rfl, fun s h => ?_, fun hv h1 h2 => ?_⟩
      · cases h
      · cases h1 <;> first | exact ⟨_, rfl⟩ | contradiction)
  · show wp (epdc_init env p load_nvm_content) w (fun r w1 =>
      r = some (-1) ∧
      w1.trace.drop w.trace.length
        = [Step.call (Call.init load_nvm_content)
            (env.status w.trace (Call.init load_nvm_content))])
    obtain ⟨t0, f0, s0⟩ := w
    obtain ⟨phv, pnvm, pc, pdv⟩ := p
    cases hc
    unfold epdc_init
    simp only [hB1, hu, if_true, bor_zero_left] at hB2 ⊢
    repeat' (first
      | with_reducible apply wp_bind_bind
      | with_reducible apply wp_bind_invoke_eq rfl
      | with_reducible apply wp_bind_pure
      | (with_reducible apply wp_ite <;> intro h)
      | with_reducible apply wp_pure)
    · simp only [List.drop_left, and_self]
    · exact absurd hB2 h

/-- Witness of C14: the full orchestrator, with collaborators that all
succeed and with a controller init that fails. -/
theorem epdc_init_forced_temperature_sample_witness :
    (∃ st rest,
        steps (epdc_init env_ok epdc_full 1) world_start
          = (if controller_full.init then [Step.call (Call.init 1) 0] else [])
              ++ Step.call Call.update_temp st :: rest ∧
        (∀ s, rest.head? ≠ some (Step.call Call.update_temp s)) ∧
        (∀ hv, epdc_full.hv = some hv → hv.init = true →
          ∃ sh, rest.head? = some (Step.call Call.hv_init sh))) ∧
    ((epdc_init env_init_fails epdc_full 1 world_start).1 = some (-1) ∧
      steps (epdc_init env_init_fails epdc_full 1) world_start
        = [Step.call (Call.init 1) (env_init_fails.status world_start.trace (Call.init 1))]) :=
  ⟨(epdc_init_forced_temperature_sample env_ok epdc_full 1 world_start controller_full
      rfl rfl).1 (Or.inr rfl),
   (epdc_init_forced_temperature_sample env_init_fails epdc_full 1 world_start controller_full
      rfl rfl).2 rfl (by decide)⟩

/-! ## C15: `init` from an NVM of format EPSON -/

/-- C15, as stated, fails: with a blob of ten bytes and an `fclose` that
fails after four bytes have reached the file, persisting the blob to
`/tmp/dummy.generic.wbf` has failed, the file holds four bytes, but
`epdc_init` does not stop there: it calls `read_header`, `set_vcom`,
`update_temp` and `load_wflib` and returns 0. -/
theorem epdc_init_epson_goes_on_after_failed_fclose :
    (epdc_init env_fclose_fails epdc_epson 1 world_start).1 = some 0 ∧
    (epdc_init env_fclose_fails epdc_epson 1 world_start).2.file "/tmp/dummy.generic.wbf"
      = some [1, 2, 3, 4] ∧
    steps (epdc_init env_fclose_fails epdc_epson 1) world_start
      = [Step.call (Call.init 1) 0, Step.call Call.update_temp 0, Step.call Call.hv_init 0,
          Step.void Call.read_wfdata,
          Step.call (Call.fopen "/tmp/dummy.generic.wbf" "wb") 1,
          Step.call (Call.fwrite "/tmp/dummy.generic.wbf" 10) 10,
          Step.call (Call.fclose "/tmp/dummy.generic.wbf") (-1),
          Step.call Call.read_header 0,
          Step.call (Call.vcomConfig_set_vcom 4000) 0,
          Step.call Call.update_temp 0,
          Step.call (Call.load_wflib "/tmp/dummy.generic.wbf") 0] := by
  decide

set_option maxHeartbeats 4000000 in
/-- C15, amended: when controller init and HV init succeed, the VCOM
configuration is present and an NVM of format EPSON returns a blob of
`n > 0` bytes, the run of `epdc_init` with `load_nvm_content` set
consists of the common start (controller init if present, `update_temp`,
HV init if present, `read_wfdata`) and the EPSON part `e`.  The calls of
`e` are an initial segment of `epson_calls`: persisting the blob to
`/tmp/dummy.generic.wbf` (`fopen`, `fwrite`, `fclose`), `read_header`,
`set_vcom` with the VCOM value of the NVM, `update_temp`, `load_wflib` on
`/tmp/dummy.generic.wbf`, in this order.  By `epson_outcome` the part
ends with the first step that fails, returning -1, where persisting
fails when `fopen` returns no stream or `fwrite` reports a count other
than `n`, the status of `fclose` not being read; and the result is 0
exactly when `e` has all seven calls and these succeeded.  The file holds
the blob when `fwrite` reports `n` bytes and `fclose` returns 0. -/
theorem epdc_init_epson_protocol (env : Env) (p : pl_generic_epdc) (load_nvm_content : Int)
    (w : World) (c : pl_generic_controller) (hv : pl_hv) (vc : pl_vcom_config) (nvm : pl_nvm)
    (blob : List Nat)
    (hc : p.controller = some c) (hu : c.update_temp = true) (hh : p.hv = some hv)
    (hvc : hv.vcomConfig = some vc) (hn : p.nvm = some nvm)
    (hf : nvm.nvm_format = pl_nvm_format.NVM_FORMAT_EPSON) (hl : load_nvm_content ≠ 0)
    (hci : ∀ t, env.status t (Call.init load_nvm_content) = 0)
    (hhi : ∀ t, env.status t Call.hv_init = 0)
    (hd : ∀ t, env.wfdata t = (blob, (blob.length : Int))) (hb : 0 < blob.length) :
    ∃ st e,
      steps (epdc_init env p load_nvm_content) w
        = (if c.init then [Step.call (Call.init load_nvm_content) 0] else [])
            ++ Step.call Call.update_temp st
            :: ((if hv.init then [Step.call Call.hv_init 0] else [])
              ++ Step.void Call.read_wfdata :: e) ∧
      calls e = (epson_calls nvm.vcom blob.length).take e.length ∧
      epson_outcome blob.length (statuses e) (epdc_init env p load_nvm_content w).1 ∧
      (Step.call (Call.fwrite "/tmp/dummy.generic.wbf" blob.length) blob.length ∈ e →
        Step.call (Call.fclose "/tmp/dummy.generic.wbf") 0 ∈ e →
        (epdc_init env p load_nvm_content w).2.file "/tmp/dummy.generic.wbf" = some blob) := by
  have hb2 : ¬ ((blob.length : Int) ≤ 0) := by omega
  show wp (epdc_init env p load_nvm_content) w (fun r w1 => ∃ st e,
      w1.trace.drop w.trace.length
        = (if c.init then [Step.call (Call.init load_nvm_content) 0] else [])
            ++ Step.call Call.update_temp st
            :: ((if hv.init then [Step.call Call.hv_init 0] else [])
              ++ Step.void Call.read_wfdata :: e) ∧
      calls e = (epson_calls nvm.vcom blob.length).take e.length ∧
      epson_outcome blob.length (statuses e) r ∧
      (Step.call (Call.fwrite "/tmp/dummy.generic.wbf" blob.length) blob.length ∈ e →
        Step.call (Call.fclose "/tmp/dummy.generic.wbf") 0 ∈ e →
        w1.file "/tmp/dummy.generic.wbf" = some blob))
  obtain ⟨b, bs, rfl⟩ : ∃ b bs, blob = b :: bs := by
    cases blob with
    | nil => simp at hb
    | cons b bs => exact ⟨b, bs, rfl⟩
  obtain ⟨t0, f0, s0⟩ := w
  obtain ⟨phv, pnvm, pc, pdv⟩ := p
  cases hc
  cases hh
  cases hn
  unfold epdc_init
  cases hi : c.init <;> cases hhi2 : hv.init
  all_goals simp only [hi, hhi2, hu, hvc, hf, hl, hd, hb2, if_true, if_false,
    Bool.false_eq_true, bor_zero_left, ne_eq, not_false_eq_true, not_true_eq_false,
    Option.isNone_some]
  all_goals
    repeat' (first
      | with_reducible apply wp_bind_bind
      | with_reducible apply wp_bind_invoke_eq (hci _)
      | with_reducible apply wp_bind_invoke_eq (hhi _)
      | (with_reducible apply wp_bind_invoke; intro _ _)
      | with_reducible apply wp_bind_invoke_void
      | with_reducible apply wp_bind_get_trace
      | (with_reducible apply wp_bind_deref <;> intro _)
      | (with_reducible apply wp_bind_assert_failed <;> intros)
      | (with_reducible apply wp_bind_fopen; intro _ _)
      | (with_reducible apply wp_bind_fwrite; intro _ _)
      | (with_reducible apply wp_bind_fclose; intro _ _)
      | (with_reducible apply wp_bind_ite <;> intro _)
      | with_reducible apply wp_bind_pure
      | with_reducible apply wp_bind_abort
      | (with_reducible apply wp_ite <;> intro _)
      | (with_reducible apply wp_invoke; intro _ _)
      | with_reducible apply wp_pure
      | with_reducible apply wp_abort
      | with_reducible apply wp_assert_failed)
  all_goals try contradiction
  all_goals simp only [List.append_assoc, List.singleton_append, List.cons_append,
    List.nil_append, List.drop_left]
  all_goals (
    refine ⟨_, _, rfl, rfl, ?_, ?_⟩
    · simp_all [statuses, epson_outcome]
    · first
      | (simp_all [World.file, flush, eq_comm (a := (0 : Int))]; done)
      | (simp_all [World.file, flush, eq_comm (a := (0 : Int))]; omega))

/-- Witness of C15, amended, with the blob of ten bytes of `env_ok`. -/
theorem epdc_init_epson_protocol_witness :
    ∃ st e,
      steps (epdc_init env_ok epdc_epson 1) world_start
        = (if controller_full.init then [Step.call (Call.init 1) 0] else [])
            ++ Step.call Call.update_temp st
            :: ((if hv_full.init then [Step.call Call.hv_init 0] else [])
              ++ Step.void Call.read_wfdata :: e) ∧
      calls e = (epson_calls (4000 : Int)
        ([1, 2, 3, 4, 5, 6, 7, 8, 9, 10] : List Nat).length).take e.length ∧
      epson_outcome ([1, 2, 3, 4, 5, 6, 7, 8, 9, 10] : List Nat).length (statuses e)
        (epdc_init env_ok epdc_epson 1 world_start).1 ∧
      (Step.call (Call.fwrite "/tmp/dummy.generic.wbf"
          ([1, 2, 3, 4, 5, 6, 7, 8, 9, 10] : List Nat).length)
          ([1, 2, 3, 4, 5, 6, 7, 8, 9, 10] : List Nat).length ∈ e →
        Step.call (Call.fclose "/tmp/dummy.generic.wbf") 0 ∈ e →
        (epdc_init env_ok epdc_epson 1 world_start).2.file "/tmp/dummy.generic.wbf"
          = some [1, 2, 3, 4, 5, 6, 7, 8, 9, 10]) :=
  epdc_init_epson_protocol env_ok epdc_epson 1 world_start controller_full hv_full ⟨0⟩
    ⟨pl_nvm_format.NVM_FORMAT_EPSON, 4000⟩ [1, 2, 3, 4, 5, 6, 7, 8, 9, 10]
    rfl rfl rfl rfl rfl rfl (by decide) (fun _ => rfl) (fun _ => rfl) (fun _ => rfl) (by decide)

/-! ## C17: an HV-on sequence is followed by an HV-off sequence -/

theorem rails_on_true_off (t : List Step) (h : rails_on true t = false) : Step.hvs_off ∈ t := by
  induction t with
  | nil => simp [rails_on] at h
  | cons s t ih =>
    cases s with
    | call c r => exact List.mem_cons_of_mem _ (ih (by simpa [rails_on] using h))
    | void c => exact List.mem_cons_of_mem _ (ih (by simpa [rails_on] using h))
    | hvs_on => exact List.mem_cons_of_mem _ (ih (by simpa [rails_on] using h))
    | hvs_off => exact List.mem_cons_self _ _

theorem rails_off_hvs_off_follows (b : Bool) (d a t : List Step) (h : rails_on b d = false)
    (hd : d = a ++ Step.hvs_on :: t) : Step.hvs_off ∈ t := by
  subst hd
  rw [rails_on_append] at h
  exact rails_on_true_off t (by simpa [rails_on] using h)

theorem steps_run_op_waits_rails (env : Env) (p : pl_generic_epdc) (op : Op) (w : World)
    (hop : op.waits = true) : rails_on false (steps (run_op env p op) w) = false := by
  obtain ⟨d, hd, _, hr⟩ := run_op_waits_rails env p op w hop
  unfold steps
  rw [hd, List.drop_left]
  exact hr

theorem fill_not_mem_hvs_on_sub (env : Env) (hv : pl_hv) (t : List Step) (a : Option pl_area)
    (v sf : Int) : Step.call (Call.fill a v) sf ∉ hvs_on_sub env hv t := by
  intro h
  have h2 := hvs_on_sub_substep env hv t _ h
  simp [is_on_substep] at h2

theorem fill_not_mem_hvs_off_sub (env : Env) (hv : pl_hv) (t : List Step) (a : Option pl_area)
    (v sf : Int) : Step.call (Call.fill a v) sf ∉ hvs_off_sub env hv t := by
  intro h
  have h2 := hvs_off_sub_substep env hv t _ h
  simp [is_off_substep] at h2

theorem do_clear_update_fill_fails (env : Env) (p : pl_generic_epdc) (w : World) (sf : Int)
    (hsf : sf ≠ 0)
    (hmem : Step.call (Call.fill none 0xFF) sf ∈ steps (do_clear_update env p) w) :
    (do_clear_update env p w).1 = some (-1) ∧
    Step.hvs_on ∉ steps (do_clear_update env p) w ∧
    (∀ s, Step.call Call.clear_update s ∉ steps (do_clear_update env p) w) ∧
    (∀ s, Step.call Call.wait_update_end s ∉ steps (do_clear_update env p) w) := by
  unfold do_clear_update steps at *
  cases hc : p.controller with
  | none => simp [hc, abort, assert_failed] at hmem
  | some c =>
    cases hcl : c.clear_update with
    | false => simp [hc, hcl, bind, Prog.bind, pure] at hmem
    | true =>
      cases hh : p.hv <;>
      by_cases ht : c.temp_mode = pl_epdc_temp_mode.PL_EPDC_TEMP_MANUAL <;>
      cases hu : c.update_temp <;>
      simp only [hc, hh, hcl, ht, hu, bind, Prog.bind, pure, invoke, abort, assert_failed, switch_hvs_on_eq,
        switch_hvs_off_eq, ne_eq, not_false_eq_true, not_true_eq_false,
        if_true, if_false, Bool.false_eq_true, Bool.not_true, Bool.not_false] at hmem ⊢ <;>
      split_ifs at hmem ⊢ with hf <;>
      simp only [hc, hh, bind, Prog.bind, pure, invoke, abort, assert_failed, switch_hvs_on_eq,
        switch_hvs_off_eq, List.append_assoc, List.singleton_append, List.cons_append,
        List.drop_left, List.nil_append] at hmem ⊢ <;>
      simp_all [fill_not_mem_hvs_on_sub, fill_not_mem_hvs_off_sub]

/-- C17: for every orchestrator, world and collaborator behaviour, in a
run of `generic_update` with a waiting mode (at most 3) and in a run of
`do_clear_update`, every entry into the HV-on sequence is followed later
in the same run by an entry into the HV-off sequence, so the rails, off
before the run, are off after it.  When `fill` returns a nonzero status,
`do_clear_update` returns -1 and its run has no HV-on sequence, no
`clear_update` call and no `wait_update_end` call. -/
theorem hvs_on_followed_by_hvs_off (env : Env) (p : pl_generic_epdc) (wfID mode : Int)
    (area : Option pl_area) (w : World) (hm : mode ≤ 3) :
    (∀ a t, steps (generic_update env p wfID mode area) w = a ++ Step.hvs_on :: t →
      Step.hvs_off ∈ t) ∧
    rails_on false (steps (generic_update env p wfID mode area) w) = false ∧
    (∀ a t, steps (do_clear_update env p) w = a ++ Step.hvs_on :: t → Step.hvs_off ∈ t) ∧
    rails_on false (steps (do_clear_update env p) w) = false ∧
    (∀ sf, sf ≠ 0 → Step.call (Call.fill none 0xFF) sf ∈ steps (do_clear_update env p) w →
      (do_clear_update env p w).1 = some (-1) ∧
      Step.hvs_on ∉ steps (do_clear_update env p) w ∧
      (∀ s, Step.call Call.clear_update s ∉ steps (do_clear_update env p) w) ∧
      (∀ s, Step.call Call.wait_update_end s ∉ steps (do_clear_update env p) w)) := by
  have hu : rails_on false (steps (generic_update env p wfID mode area) w) = false :=
    steps_run_op_waits_rails env p (Op.update wfID mode area) w (by simpa [Op.waits] using hm)
  have hcl : rails_on false (steps (do_clear_update env p) w) = false :=
    steps_run_op_waits_rails env p Op.clear_init w rfl
  exact ⟨fun a t h => rails_off_hvs_off_follows false _ a t hu h, hu,
    fun a t h => rails_off_hvs_off_follows false _ a t hcl h, hcl,
    fun sf hsf hmem => do_clear_update_fill_fails env p w sf hsf hmem⟩

/-- Witness of C17: the full orchestrator, with collaborators whose
`fill` fails, and an update of mode 2. -/
theorem hvs_on_followed_by_hvs_off_witness :
    (2 : Int) ≤ 3 ∧
    ((∀ a t, steps (generic_update env_fill_fails epdc_full 1 2 none) world_start
        = a ++ Step.hvs_on :: t → Step.hvs_off ∈ t) ∧
    rails_on false (steps (generic_update env_fill_fails epdc_full 1 2 none) world_start)
      = false ∧
    (∀ a t, steps (do_clear_update env_fill_fails epdc_full) world_start
        = a ++ Step.hvs_on :: t → Step.hvs_off ∈ t) ∧
    rails_on false (steps (do_clear_update env_fill_fails epdc_full) world_start) = false ∧
    (∀ sf, sf ≠ 0 →
      Step.call (Call.fill none 0xFF) sf
        ∈ steps (do_clear_update env_fill_fails epdc_full) world_start →
      (do_clear_update env_fill_fails epdc_full world_start).1 = some (-1) ∧
      Step.hvs_on ∉ steps (do_clear_update env_fill_fails epdc_full) world_start ∧
      (∀ s, Step.call Call.clear_update s
        ∉ steps (do_clear_update env_fill_fails epdc_full) world_start) ∧
      (∀ s, Step.call Call.wait_update_end s
        ∉ steps (do_clear_update env_fill_fails epdc_full) world_start))) :=
  ⟨by decide, hvs_on_followed_by_hvs_off env_fill_fails epdc_full 1 2 none world_start
    (by decide)⟩

end GenericEpdc
